import Mathlib

/-!
# Verification of the F1 Race Strategy Analyzer core

A shallow embedding, over exact rational arithmetic, of the analytical core of
the repository (`strategy_recommender.py`, `strategy_analysis.py`,
`undercut_simulator.py`), together with theorems settling the specification
claims about it.  Floating-point values of the source are modelled as `ℚ`;
missing table cells are modelled as `Option ℚ`; Python exceptions of the
modelled functions are rendered as `Except String`.
-/

set_option maxRecDepth 100000

deriving instance DecidableEq for Except

namespace F1

/-! ## Generic numeric helpers (numpy counterparts) -/

/-- `np.linspace a b n`: `n` evenly spaced samples from `a` to `b` inclusive. -/
def linspaceQ (a b : ℚ) (n : Nat) : List ℚ :=
  if n = 0 then []
  else if n = 1 then [a]
  else (List.range n).map (fun (i : Nat) => a + (b - a) * (i : ℚ) / ((n : ℚ) - 1))

/-- `np.interp` over a knot list `pts` (pairs `(x, y)` with strictly increasing
`x`, as numpy requires): clamps below the first knot and above the last knot,
and interpolates linearly in between. -/
def npInterp : List (ℚ × ℚ) → ℚ → ℚ
  | [], _ => 0
  | [(_, y)], _ => y
  | (x1, y1) :: (x2, y2) :: rest, t =>
    if t ≤ x1 then y1
    else if t ≤ x2 then y1 + (t - x1) * (y2 - y1) / (x2 - x1)
    else npInterp ((x2, y2) :: rest) t

/-- Running (cumulative) sums of a list starting from `s` (pandas `cumsum`). -/
def prefixSumsFrom (s : ℚ) : List ℚ → List ℚ
  | [] => []
  | x :: xs => (s + x) :: prefixSumsFrom (s + x) xs

/-- Maximum of a list of naturals (pandas `.max()` on an integer column). -/
def natMax (l : List Nat) : Nat := l.foldl max 0

/-! ## Embedding of `strategy_recommender.py` -/

/-- One row of a degradation table: columns `Compound`, `LapIndex`,
`LapTime_s` (mean lap time). -/
structure DegRow where
  compound : String
  lapIndex : Nat
  lapTime : ℚ
deriving DecidableEq

/-- The rows of the degradation table belonging to one compound, in row
order (`degradation_df[degradation_df["Compound"] == compound]`). -/
def compoundRows (df : List DegRow) (c : String) : List DegRow :=
  df.filter (fun r => r.compound == c)

/-- The body of the `estimate_tyre_life` loop for a single compound:
`base` is the group's first `LapTime_s`, the threshold is `base * 1.05`,
the result is the `LapIndex` of the first row exceeding the threshold,
or the maximum `LapIndex` of the group when none does.  Returns `0` for a
compound with no rows (unreachable for compounds present in the table). -/
def tyreLifeAux : List DegRow → Nat
  | [] => 0
  | r :: rs =>
    let threshold := r.lapTime * (21 / 20 : ℚ)
    match (r :: rs).filter (fun x => threshold < x.lapTime) with
    | [] => natMax ((r :: rs).map (fun x => x.lapIndex))
    | e :: _ => e.lapIndex

/-- The per-compound tyre life (see `tyreLifeAux` for the loop body). -/
def tyre_life_of (df : List DegRow) (c : String) : Nat :=
  tyreLifeAux (compoundRows df c)

/-- Unique values of a list in first-appearance order
(pandas `Series.unique()`). -/
def firstUnique : List String → List String
  | [] => []
  | x :: xs => x :: firstUnique (xs.filter (fun y => y ≠ x))
termination_by l => l.length
decreasing_by
  exact Nat.lt_succ_of_le (List.length_filter_le _ _)

/-- The unique compounds of a degradation table, in order of first
appearance (`degradation_df["Compound"].unique().tolist()`). -/
def uniqueCompounds (df : List DegRow) : List String :=
  firstUnique (df.map (fun r => r.compound))

/-- `estimate_tyre_life`: the per-compound usable-life map.  Python builds a
dict iterating `groupby("Compound")` (sorted key order); as a key-to-value
map the result does not depend on iteration order, so the entries are kept
in first-appearance order here. -/
def estimate_tyre_life (df : List DegRow) : List (String × Nat) :=
  (uniqueCompounds df).map (fun c => (c, tyre_life_of df c))

/-- One simulated stint of `simulate_strategy`
(`{"Compound": ..., "Laps": ..., "Time_s": ...}`). -/
structure Stint where
  compound : String
  laps : Nat
  time : ℚ
deriving DecidableEq

/-- The full result of `simulate_strategy`. -/
structure SimResult where
  total_race_time_s : ℚ
  stints : List Stint
  sequence : List String
deriving DecidableEq

/-- One loop iteration of `simulate_strategy`: stint length is
`min(int(tyre_life.get(compound, 10)), laps_remaining)`; the compound's
degradation curve (or, when it is empty, the fallback `np.linspace(90, 95,
stint_len)`) is stretched by `np.interp` when shorter than the stint and
truncated when longer; the stint time is the sum of the resulting lap
times. -/
def simStint (df : List DegRow) (tyreLife : List (String × Nat))
    (c : String) (lapsRemaining : Nat) : Stint :=
  let stintLen := min ((tyreLife.lookup c).getD 10) lapsRemaining
  let avgCurve0 := (compoundRows df c).map (fun r => r.lapTime)
  let avgCurve := if avgCurve0.isEmpty then linspaceQ 90 95 stintLen else avgCurve0
  let lapTimes :=
    if avgCurve.length < stintLen then
      (linspaceQ 0 ((avgCurve.length - 1 : Nat) : ℚ) stintLen).map
        (npInterp (avgCurve.enum.map (fun p => ((p.1 : ℚ), p.2))))
    else
      avgCurve.take stintLen
  { compound := c, laps := stintLen, time := lapTimes.sum }

/-- The `for compound in compound_sequence` loop of `simulate_strategy`:
returns the accumulated race time and the stint list.  After each stint the
remaining laps are reduced; the loop breaks when they reach zero, and
otherwise `pit_loss` is added — also after the last stint of a sequence that
ends with laps still remaining, exactly as in the source. -/
def simGo (df : List DegRow) (tyreLife : List (String × Nat)) (pitLoss : ℚ) :
    List String → Nat → ℚ × List Stint
  | [], _ => (0, [])
  | c :: cs, lapsRemaining =>
    let s := simStint df tyreLife c lapsRemaining
    let rem := lapsRemaining - s.laps
    if rem = 0 then (s.time, [s])
    else
      let rest := simGo df tyreLife pitLoss cs rem
      (s.time + pitLoss + rest.1, s :: rest.2)

/-- `simulate_strategy(total_laps, compound_sequence, degradation_df,
pit_loss, tyre_life)`; a `none` tyre-life argument is replaced by
`estimate_tyre_life(degradation_df)` as in the source. -/
def simulate_strategy (totalLaps : Nat) (compoundSequence : List String)
    (df : List DegRow) (pitLoss : ℚ)
    (tyreLife? : Option (List (String × Nat))) : SimResult :=
  let tl := tyreLife?.getD (estimate_tyre_life df)
  let r := simGo df tl pitLoss compoundSequence totalLaps
  { total_race_time_s := r.1, stints := r.2, sequence := compoundSequence }

/-- The number of pit losses `simulate_strategy` charges for a race of
`totalLaps` laps whose stints have the given lengths: one after every stint
that still leaves laps remaining. -/
def pitCount : Nat → List Nat → Nat
  | _, [] => 0
  | totalLaps, l :: ls =>
    if totalLaps - l = 0 then 0 else 1 + pitCount (totalLaps - l) ls

/-- All ordered sequences of length `n` over `compounds`
(`itertools.product(compounds, repeat=n)`, first position slowest). -/
def seqProd (compounds : List String) : Nat → List (List String)
  | 0 => [[]]
  | n + 1 => (compounds.map (fun c => (seqProd compounds n).map (fun s => c :: s))).flatten

/-- `_generate_compound_sequences`: in dry weather only sequences using at
least two distinct compounds (`len(set(seq)) >= 2`) are kept; in any other
weather all product sequences are returned. -/
def generate_compound_sequences (compounds : List String) (stintCount : Nat)
    (weather : String) : List (List String) :=
  if weather == "dry" then
    (seqProd compounds stintCount).filter (fun s => 2 ≤ s.dedup.length)
  else
    seqProd compounds stintCount

/-- The weather-adjusted tyre-life map of `recommend_optimal_strategy`:
every estimated life is scaled by the weather factor (1.0 for dry, 0.7
otherwise) and truncated to an integer (`int(tyre_life[k] * weather_factor)`;
the values are nonnegative, so truncation is the floor). -/
def recommend_tyre_life (df : List DegRow) (weather : String) : List (String × Nat) :=
  let weatherFactor : ℚ := if weather == "dry" then 1 else 7 / 10
  (estimate_tyre_life df).map (fun p => (p.1, (((p.2 : ℚ) * weatherFactor).floor).toNat))

/-- The pit loss actually used by `recommend_optimal_strategy`: inflated by
10% for wet weather, then by 5% for qualifying positions 1–3 or discounted
by 5% for positions 11 and beyond (position 0 / `None` is falsy in Python
and leaves the value unchanged). -/
def recommend_pit_loss (pitLoss : ℚ) (weather : String)
    (qualifyingPosition : Option Nat) : ℚ :=
  let p1 := pitLoss * (if weather == "wet" then 11 / 10 else 1)
  match qualifyingPosition with
  | none => p1
  | some q =>
    if q = 0 then p1
    else if q ≤ 3 then p1 * (21 / 20)
    else if q ≤ 10 then p1
    else p1 * (19 / 20)

/-- The candidate stint counts of `recommend_optimal_strategy`: set from the
circuit type, then overridden by the qualifying-position policy when a
(truthy) position is given. -/
def recommend_stint_counts (circuitType : String)
    (qualifyingPosition : Option Nat) : List Nat :=
  let base := if circuitType == "high_deg" then [2, 3] else [1, 2]
  match qualifyingPosition with
  | none => base
  | some q =>
    if q = 0 then base
    else if q ≤ 3 then [1, 2]
    else if q ≤ 10 then [2]
    else [2, 3]

/-- The list `results` accumulated by `recommend_optimal_strategy`: for each
candidate stint count, every legal compound sequence is simulated with the
weather-adjusted tyre lives and the adjusted pit loss. -/
def recommend_results (totalLaps : Nat) (df : List DegRow) (pitLoss : ℚ)
    (circuitType weather : String) (qualifyingPosition : Option Nat) :
    List SimResult :=
  let compounds := uniqueCompounds df
  let pl := recommend_pit_loss pitLoss weather qualifyingPosition
  let tl := recommend_tyre_life df weather
  ((recommend_stint_counts circuitType qualifyingPosition).map (fun n =>
    (generate_compound_sequences compounds n weather).map (fun seq =>
      simulate_strategy totalLaps seq df pl (some tl)))).flatten

/-- One row of the ranked strategy table
(`{"Strategy": " → ".join(seq), "TotalTime_s": total}`). -/
structure RankedRow where
  strategy : List String
  totalTime : ℚ
deriving DecidableEq

/-- A stable insertion sort by ascending total time
(`results_df.sort_values("TotalTime_s")`). -/
def rankRows (rows : List RankedRow) : List RankedRow :=
  List.insertionSort (fun a b => a.totalTime ≤ b.totalTime) rows

/-- `recommend_optimal_strategy`: the best row together with the ranked
table, or `none` and an empty table when no legal sequence exists. -/
def recommend_optimal_strategy (totalLaps : Nat) (df : List DegRow)
    (pitLoss : ℚ) (circuitType weather : String)
    (qualifyingPosition : Option Nat) :
    Option RankedRow × List RankedRow :=
  let results := recommend_results totalLaps df pitLoss circuitType weather
    qualifyingPosition
  match rankRows (results.map (fun r =>
      { strategy := r.sequence, totalTime := r.total_race_time_s })) with
  | [] => (none, [])
  | best :: rest => (some best, best :: rest)

/-! ## Embedding of `strategy_analysis.py` -/

/-- An input lap row for `compute_stint_data` (the table is modelled as
having a `LapTime` column; a missing cell is `none`). -/
structure SLap where
  driver : String
  lapNumber : Nat
  stint : Nat
  lapTime : Option ℚ
deriving DecidableEq

/-- An output row of `compute_stint_data`, with the derived `LapTime_s`
and cumulative `RaceTime_s` columns. -/
structure SOut where
  driver : String
  lapNumber : Nat
  stint : Nat
  lapTime_s : ℚ
  raceTime_s : ℚ
deriving DecidableEq

/-- `df.groupby('Driver')['LapTime_s'].cumsum()`: walks the rows in frame
order keeping one running total per driver; each output row carries that
driver's total so far. -/
def cumByDriver : List (String × ℚ) → List (SLap × ℚ) → List SOut
  | _, [] => []
  | acc, (r, t) :: rest =>
    let tot := (acc.lookup r.driver).getD 0 + t
    { driver := r.driver, lapNumber := r.lapNumber, stint := r.stint,
      lapTime_s := t, raceTime_s := tot } ::
      cumByDriver ((r.driver, tot) :: acc) rest

/-- The sort key of `df.sort_values(['LapNumber', 'Stint'])`: lexicographic
on `(LapNumber, Stint)`.  (pandas' default sort is not stable; every result
proved below is independent of how key ties between different drivers are
broken, so one fixed sort is used.) -/
def lapKeyLE (a b : SLap × ℚ) : Prop :=
  a.1.lapNumber < b.1.lapNumber ∨
    (a.1.lapNumber = b.1.lapNumber ∧ a.1.stint ≤ b.1.stint)

instance : DecidableRel lapKeyLE := fun a b => by
  unfold lapKeyLE; infer_instance

instance : IsTotal (SLap × ℚ) lapKeyLE :=
  ⟨fun a b => by
    unfold lapKeyLE
    rcases Nat.lt_trichotomy a.1.lapNumber b.1.lapNumber with h | h | h
    · exact Or.inl (Or.inl h)
    · rcases Nat.le_total a.1.stint b.1.stint with h2 | h2
      · exact Or.inl (Or.inr ⟨h, h2⟩)
      · exact Or.inr (Or.inr ⟨h.symm, h2⟩)
    · exact Or.inr (Or.inl h)⟩

instance : IsTrans (SLap × ℚ) lapKeyLE :=
  ⟨fun a b c hab hbc => by
    unfold lapKeyLE at *
    rcases hab with h1 | ⟨e1, s1⟩
    · rcases hbc with h2 | ⟨e2, _⟩
      · exact Or.inl (h1.trans h2)
      · exact Or.inl (e2 ▸ h1)
    · rcases hbc with h2 | ⟨e2, s2⟩
      · exact Or.inl (e1 ▸ h2)
      · exact Or.inr ⟨e1.trans e2, s1.trans s2⟩⟩

/-- `compute_stint_data(laps)`: rows with a missing `LapTime` are dropped
(`dropna(subset=['LapTime'])`) and `LapTime_s` is derived; when a `Time`
column is present the frame is first sorted by `(LapNumber, Stint)`; the
cumulative `RaceTime_s` is then the per-driver running sum of `LapTime_s`
in the frame's current row order. -/
def compute_stint_data (hasTime : Bool) (laps : List SLap) : List SOut :=
  let kept := laps.filterMap (fun r => r.lapTime.map (fun t => (r, t)))
  let ordered := if hasTime then List.insertionSort lapKeyLE kept else kept
  cumByDriver [] ordered

/-- An input row for `compute_gap_to_leader`. -/
structure GRow where
  driver : String
  lapNumber : Nat
  raceTime : ℚ
deriving DecidableEq

/-- An output row of `compute_gap_to_leader`. -/
structure GOut where
  driver : String
  lapNumber : Nat
  raceTime : ℚ
  leaderTime : ℚ
  gapToLeader : ℚ
deriving DecidableEq

/-- Minimum of a list of rationals (`0` for an empty list; only applied to
non-empty lists below). -/
def minQ : List ℚ → ℚ
  | [] => 0
  | x :: xs => xs.foldl min x

/-- The leader's time for one lap: the minimum `RaceTime_s` among the rows
of that `LapNumber` (`g.loc[g['RaceTime_s'].idxmin()]`). -/
def leaderTimeAt (rows : List GRow) (ln : Nat) : ℚ :=
  minQ ((rows.filter (fun r => r.lapNumber == ln)).map (fun r => r.raceTime))

/-- `compute_gap_to_leader(stints)`: an empty frame is returned unchanged
before any column check; a non-empty frame lacking `RaceTime_s` or
`LapNumber` raises `ValueError`; otherwise every row is joined with its
lap's leader time and `GapToLeader_s = RaceTime_s - LeaderTime_s`.  Column
presence is modelled by the two boolean flags. -/
def compute_gap_to_leader (hasRaceTime hasLapNumber : Bool)
    (rows : List GRow) : Except String (List GOut) :=
  if rows.isEmpty then .ok []
  else if !(hasRaceTime && hasLapNumber) then
    .error ("stints must contain RaceTime_s and LapNumber")
  else
    .ok (rows.map (fun r =>
      { driver := r.driver, lapNumber := r.lapNumber, raceTime := r.raceTime,
        leaderTime := leaderTimeAt rows r.lapNumber,
        gapToLeader := r.raceTime - leaderTimeAt rows r.lapNumber }))

/-- An input lap row for the undercut/overcut duel simulator (a `NaN`
`LapTime_s` cell is `none`). -/
structure ULap where
  driver : String
  lapNumber : Nat
  compound : String
  lapTime : Option ℚ
deriving DecidableEq

/-- The sort key of `laps.sort_values(['Driver', 'LapNumber'])`. -/
def driverLapLE (a b : ULap) : Prop :=
  a.driver < b.driver ∨ (a.driver = b.driver ∧ a.lapNumber ≤ b.lapNumber)

instance : DecidableRel driverLapLE := fun a b => by
  unfold driverLapLE; infer_instance

/-- `detect_pit_stops_from_compound(laps)`: after sorting by
`(Driver, LapNumber)`, a pit event `(driver, pit_lap)` is emitted on every
row whose compound differs from the same driver's immediately preceding
row. -/
def detect_pit_stops_from_compound (laps : List ULap) : List (String × Nat) :=
  let sorted := List.insertionSort driverLapLE laps
  (sorted.zip sorted.tail).filterMap (fun p =>
    if p.1.driver = p.2.driver ∧ p.1.compound ≠ p.2.compound then
      some (p.2.driver, p.2.lapNumber)
    else none)

/-- `np.nanmean` of one driver's `LapTime_s` column: the mean of the
present values, or `none` (numpy's `NaN`) when the driver has none. -/
def nanmeanOf (laps : List ULap) (who : String) : Option ℚ :=
  let ts := (laps.filter (fun r => r.driver == who)).filterMap (fun r => r.lapTime)
  if ts.isEmpty then none else some (ts.sum / ts.length)

/-- The error message of Python's `float()` on a pandas Series, raised by
`float(d_laps.loc[lap]['LapTime_s'])` when the driver has more than one row
with the same `LapNumber`. -/
def floatSeriesError : String := "cannot convert the series to float"

/-- The observed lap time of `who` on lap `lap`
(`d_laps.loc[lap]['LapTime_s']` after `set_index('LapNumber')`): `none`
when the lap is absent or its cell is `NaN`, the row's value when exactly
one row matches, and the `TypeError` of `float(...)` on a Series when the
driver has several rows with this lap number (`.loc` then yields more than
one row). -/
def obsTime (laps : List ULap) (who : String) (lap : Nat) :
    Except String (Option ℚ) :=
  match laps.filter (fun r => r.driver == who && r.lapNumber == lap) with
  | [] => .ok none
  | [r] => .ok r.lapTime
  | _ => .error floatSeriesError

/-- The value `obsTime` yields on a table without duplicated
`(Driver, LapNumber)` pairs: the unique matching row's cell. -/
def obsTimeVal (laps : List ULap) (who : String) (lap : Nat) : Option ℚ :=
  (laps.find? (fun r => r.driver == who && r.lapNumber == lap)).bind
    (fun r => r.lapTime)

/-- The error-free tail of one duel-loop iteration, given the observed
time `t0`: the pit delta is added on a pit lap (or stands alone when the
observed time is missing), and the participant's own mean time is
backfilled when the value is still missing. -/
def simLapTimeTail (laps : List ULap) (who : String) (pitLaps : List Nat)
    (delta : ℚ) (lap : Nat) (t0 : Option ℚ) : Option ℚ :=
  let t1 := if lap ∈ pitLaps then
      some (match t0 with
        | some t => t + delta
        | none => delta)
    else t0
  match t1 with
  | some t => some t
  | none => nanmeanOf laps who

/-- One iteration of the duel loop for one participant: the observed time
(propagating its `TypeError`) fed into `simLapTimeTail`. -/
def simLapTime (laps : List ULap) (who : String) (pitLaps : List Nat)
    (delta : ℚ) (lap : Nat) : Except String (Option ℚ) := do
  let t0 ← obsTime laps who lap
  pure (simLapTimeTail laps who pitLaps delta lap t0)

/-- The value `simLapTime` yields on a table without duplicated
`(Driver, LapNumber)` pairs. -/
def simLapTimeVal (laps : List ULap) (who : String) (pitLaps : List Nat)
    (delta : ℚ) (lap : Nat) : Option ℚ :=
  simLapTimeTail laps who pitLaps delta lap (obsTimeVal laps who lap)

/-- `NaN`-propagating addition of modelled floats. -/
def optAdd : Option ℚ → Option ℚ → Option ℚ
  | some a, some b => some (a + b)
  | _, _ => none

/-- `NaN`-propagating subtraction of modelled floats. -/
def optSub : Option ℚ → Option ℚ → Option ℚ
  | some a, some b => some (a - b)
  | _, _ => none

/-- Running cumulative sums with `NaN` propagation, starting from `start`. -/
def optPrefixSums (start : Option ℚ) : List (Option ℚ) → List (Option ℚ)
  | [] => []
  | x :: xs => optAdd start x :: optPrefixSums (optAdd start x) xs

/-- `NaN`-propagating total of a list of modelled floats. -/
def optSum (l : List (Option ℚ)) : Option ℚ :=
  l.foldl optAdd (some 0)

/-- `int(laps['LapNumber'].max())`. -/
def maxLapOf (laps : List ULap) : Nat :=
  natMax (laps.map (fun r => r.lapNumber))

/-- The per-lap values of laps `1 .. max_lap` for one participant of a
table without duplicated `(Driver, LapNumber)` pairs. -/
def perLapVals (laps : List ULap) (who : String) (pitLaps : List Nat)
    (delta : ℚ) : List (Option ℚ) :=
  (List.range (maxLapOf laps)).map
    (fun i => simLapTimeVal laps who pitLaps delta (i + 1))

/-- The per-lap simulated times of one participant over a list of lap
numbers, propagating the first `TypeError` the loop hits. -/
def simLapTimesOver (laps : List ULap) (who : String) (pitLaps : List Nat)
    (delta : ℚ) : List Nat → Except String (List (Option ℚ))
  | [] => .ok []
  | i :: is => do
    let t ← simLapTime laps who pitLaps delta i
    let rest ← simLapTimesOver laps who pitLaps delta is
    pure (t :: rest)

/-- The per-lap simulated times of one participant over laps
`1 .. max_lap`. -/
def perLapTimes (laps : List ULap) (who : String) (pitLaps : List Nat)
    (delta : ℚ) : Except String (List (Option ℚ)) :=
  simLapTimesOver laps who pitLaps delta
    ((List.range (maxLapOf laps)).map (fun i => i + 1))

/-- The result dict of `simulate_undercut_overtake`. -/
structure UndercutResult where
  driver : String
  rival : String
  candidate_pit_lap : Nat
  rival_pit_laps : List Nat
  final_gap_s : Option ℚ
  sim_driver_cum : List (Option ℚ)
  sim_rival_cum : List (Option ℚ)
deriving DecidableEq

/-- How a call of `simulate_undercut_overtake` can end: with the soft
`{"error": ...}` dict the source returns for an empty table, with a Python
exception escaping the function, or with a result dict. -/
inductive UndercutOutcome where
  | errorDict (msg : String)
  | raised (msg : String)
  | ok (res : UndercutResult)
deriving DecidableEq

/-- The `IndexError` message of `sim_d[-1]` on an empty list. -/
def listIndexError : String := "list index out of range"

/-- The rival's pit laps: the compound-change laps detected for the rival,
or the half-distance lap when none is detected. -/
def rivalPitsOf (laps : List ULap) (rival : String) : List Nat :=
  let detected := detect_pit_stops_from_compound laps
  let rivalPits0 := (detected.filter (fun e => e.1 == rival)).map (fun e => e.2)
  if rivalPits0.isEmpty then [maxLapOf laps / 2] else rivalPits0

/-- The tail of `simulate_undercut_overtake` after the per-lap loop: the
cumulative series and the `sim_d[-1] - sim_r[-1]` final gap, whose indexing
raises `IndexError` when the series are empty (`max_lap = 0`). -/
def undercutFinalize (driver rival : String) (candidatePitLap : Nat)
    (rivalPits : List Nat) (dT rT : List (Option ℚ)) : UndercutOutcome :=
  match (optPrefixSums (some 0) dT).getLast?,
      (optPrefixSums (some 0) rT).getLast? with
  | some dl, some rl =>
    .ok { driver := driver, rival := rival,
          candidate_pit_lap := candidatePitLap,
          rival_pit_laps := rivalPits,
          final_gap_s := optSub dl rl,
          sim_driver_cum := optPrefixSums (some 0) dT,
          sim_rival_cum := optPrefixSums (some 0) rT }
  | _, _ => .raised listIndexError

/-- `simulate_undercut_overtake(laps, driver, rival, candidate_pit_lap,
pit_delta_est)`: an empty lap table yields the soft `{"error": ...}` dict;
a duplicated `(Driver, LapNumber)` row of a simulated participant on a
visited lap propagates the `TypeError` of `float(...)` on a Series;
otherwise the cumulative series are built over laps `1 .. max_lap` and
`undercutFinalize` computes the final gap (raising `IndexError` when
`max_lap` is `0` and the loop never ran). -/
def simulate_undercut_overtake (laps : List ULap) (driver rival : String)
    (candidatePitLap : Nat) (pitDeltaEst : ℚ) : UndercutOutcome :=
  if laps.isEmpty then .errorDict ("lap data empty")
  else
    match perLapTimes laps driver [candidatePitLap] pitDeltaEst,
        perLapTimes laps rival (rivalPitsOf laps rival) pitDeltaEst with
    | .error e, _ => .raised e
    | .ok _, .error e => .raised e
    | .ok dT, .ok rT =>
      undercutFinalize driver rival candidatePitLap (rivalPitsOf laps rival) dT rT

/-! ## Embedding of `undercut_simulator.py` -/

/-- The race length actually simulated: the requested `total_laps`, resolved
down to the table's maximum `LapIndex` when the request exceeds it. -/
def resolved_total_laps (df : List DegRow) (totalLaps : Nat) : Nat :=
  let maxIdx := natMax (df.map (fun r => r.lapIndex))
  if maxIdx < totalLaps then maxIdx else totalLaps

/-- `get_deg_curve(comp)`: no rows for the compound raises; a single data
point is repeated for the whole race (`np.repeat`); otherwise the curve is
`np.interp` sampled at laps `1 .. total_laps`. -/
def get_deg_curve (df : List DegRow) (totalLaps : Nat) (comp : String) :
    Except String (List ℚ) :=
  match compoundRows df comp with
  | [] => .error ("No degradation data for compound " ++ comp)
  | [r] => .ok (List.replicate totalLaps r.lapTime)
  | rs => .ok ((List.range totalLaps).map (fun (i : Nat) =>
      npInterp (rs.map (fun r => ((r.lapIndex : ℚ), r.lapTime))) ((i : ℚ) + 1)))

/-- The instantaneous delta of the payoff loop for lap `lapNum`
(1-based): compound-B time minus compound-A time before the undercut lap,
minus the pit loss on it, and compound-B time minus the fresh-tyre estimate
`laps_a[0] * (1 + 0.002 * tyre_age)` after it. -/
def payoffDelta (lapsA lapsB : List ℚ) (undercutLap : Nat) (pitLoss : ℚ)
    (lapNum : Nat) : ℚ :=
  if lapNum < undercutLap then lapsB.getD (lapNum - 1) 0 - lapsA.getD (lapNum - 1) 0
  else if lapNum = undercutLap then -pitLoss
  else
    let tyreAge : Nat := lapNum - undercutLap
    let freshLap := lapsA.getD 0 0 * (1 + (2 / 1000 : ℚ) * tyreAge)
    lapsB.getD (lapNum - 1) 0 - freshLap

/-- One row of the payoff frame (`Lap`, `Gap_to_Leader(s)`, `Delta(s)`). -/
structure PayoffRow where
  lap : Nat
  gap : ℚ
  delta : ℚ
deriving DecidableEq

/-- The payoff summary dict. -/
structure PayoffSummary where
  bestLap : Nat
  minGap : ℚ
  compound_A : String
  compound_B : String
deriving DecidableEq

/-- `simulate_undercut_vs_overcut(degradation_df, compound_a, compound_b,
undercut_lap, total_laps, pit_loss)`: validation errors for an empty table
and for a zero resolved race length, then the per-lap delta loop, its
running-sum gap, and the summary at the first gap minimum (`idxmin`).
(The modelled table always carries its lap-time column, so the source's
missing-column `KeyError` has no counterpart here.) -/
def simulate_undercut_vs_overcut (df : List DegRow) (ca cb : String)
    (undercutLap totalLaps0 : Nat) (pitLoss : ℚ) :
    Except String (List PayoffRow × PayoffSummary) :=
  if df.isEmpty then .error ("degradation_df is empty")
  else
    let total := resolved_total_laps df totalLaps0
    if total = 0 then .error ("total_laps must be greater than 0")
    else do
      let lapsA ← get_deg_curve df total ca
      let lapsB ← get_deg_curve df total cb
      let deltas := (List.range total).map (fun i =>
        payoffDelta lapsA lapsB undercutLap pitLoss (i + 1))
      let gaps := prefixSumsFrom 0 deltas
      let rows := (List.range total).map (fun i =>
        ({ lap := i + 1, gap := gaps.getD i 0, delta := deltas.getD i 0 } : PayoffRow))
      let minGap := minQ gaps
      let bestLap := (((rows.find? (fun r => r.gap == minGap)).map
        (fun r => r.lap)).getD 0)
      .ok (rows, { bestLap := bestLap, minGap := minGap,
                   compound_A := ca, compound_B := cb })

/-! ## Structural lemmas about `simulate_strategy` -/

lemma simStint_laps (df : List DegRow) (tl : List (String × Nat)) (c : String)
    (rem : Nat) : (simStint df tl c rem).laps = min ((tl.lookup c).getD 10) rem :=
  rfl

lemma simStint_compound (df : List DegRow) (tl : List (String × Nat)) (c : String)
    (rem : Nat) : (simStint df tl c rem).compound = c :=
  rfl

lemma simStint_laps_le (df : List DegRow) (tl : List (String × Nat)) (c : String)
    (rem : Nat) : (simStint df tl c rem).laps ≤ rem := by
  rw [simStint_laps]; exact Nat.min_le_right _ _

lemma pitCount_le_length : ∀ (ls : List Nat) (rem : Nat), pitCount rem ls ≤ ls.length
  | [], _ => Nat.le_refl _
  | l :: ls, rem => by
    rw [pitCount]
    split
    · exact Nat.zero_le _
    · simpa [Nat.add_comm] using Nat.add_le_add_right (pitCount_le_length ls (rem - l)) 1

/-- The accumulated total of the stint loop is the sum of the stint times
plus one pit loss for every stint that leaves laps remaining. -/
lemma simGo_total (df : List DegRow) (tl : List (String × Nat)) (p : ℚ) :
    ∀ (seq : List String) (rem : Nat),
      (simGo df tl p seq rem).1 =
        ((simGo df tl p seq rem).2.map Stint.time).sum +
          p * pitCount rem ((simGo df tl p seq rem).2.map Stint.laps)
  | [], rem => by simp [simGo, pitCount]
  | c :: cs, rem => by
    rw [simGo]
    split
    · next h =>
      simp [pitCount, h]
    · next h =>
      have ih := simGo_total df tl p cs (rem - (simStint df tl c rem).laps)
      simp only [List.map_cons, List.sum_cons, pitCount, if_neg h, ih]
      push_cast
      ring

/-- The stint list produced by the loop does not depend on the pit loss. -/
lemma simGo_stints_pit_indep (df : List DegRow) (tl : List (String × Nat))
    (p q : ℚ) : ∀ (seq : List String) (rem : Nat),
      (simGo df tl p seq rem).2 = (simGo df tl q seq rem).2
  | [], _ => rfl
  | c :: cs, rem => by
    rw [simGo, simGo]
    split
    · rfl
    · simpa using simGo_stints_pit_indep df tl p q cs (rem - (simStint df tl c rem).laps)

/-- The simulated stint lengths sum to `min rem (total tyre life of the
sequence)`. -/
lemma simGo_laps_sum (df : List DegRow) (tl : List (String × Nat)) (p : ℚ) :
    ∀ (seq : List String) (rem : Nat),
      ((simGo df tl p seq rem).2.map Stint.laps).sum =
        min rem ((seq.map (fun c => (tl.lookup c).getD 10)).sum)
  | [], rem => by simp [simGo]
  | c :: cs, rem => by
    rw [simGo]
    have hlaps := simStint_laps df tl c rem
    split
    · next h =>
      have h1 : rem ≤ (tl.lookup c).getD 10 := by
        rw [hlaps] at h; omega
      simp only [List.map_cons, List.sum_cons, List.map_nil, List.sum_nil, hlaps]
      omega
    · next h =>
      have ih := simGo_laps_sum df tl p cs (rem - (simStint df tl c rem).laps)
      have h2 : (simStint df tl c rem).laps ≤ rem := simStint_laps_le df tl c rem
      simp only [List.map_cons, List.sum_cons, ih, hlaps] at *
      omega

/-- When the stint lengths consume the whole race, the number of charged
pit losses is the number of stints minus one. -/
lemma simGo_pitCount_complete (df : List DegRow) (tl : List (String × Nat))
    (p : ℚ) : ∀ (seq : List String) (rem : Nat),
      ((simGo df tl p seq rem).2.map Stint.laps).sum = rem →
      pitCount rem ((simGo df tl p seq rem).2.map Stint.laps) =
        (simGo df tl p seq rem).2.length - 1
  | [], rem => by simp [simGo, pitCount]
  | c :: cs, rem => by
    rw [simGo]
    split
    · next h =>
      intro _
      simp [pitCount, h]
    · next h =>
      intro hsum
      have ih := simGo_pitCount_complete df tl p cs (rem - (simStint df tl c rem).laps)
      simp only [List.map_cons, List.sum_cons, List.length_cons] at *
      have h2 : (simStint df tl c rem).laps ≤ rem := simStint_laps_le df tl c rem
      have hrest : ((simGo df tl p cs (rem - (simStint df tl c rem).laps)).2.map
          Stint.laps).sum = rem - (simStint df tl c rem).laps := by omega
      have hne : (simGo df tl p cs (rem - (simStint df tl c rem).laps)).2 ≠ [] := by
        intro hnil
        rw [hnil] at hrest
        simp at hrest
        omega
      have hlen : 1 ≤ (simGo df tl p cs (rem - (simStint df tl c rem).laps)).2.length :=
        List.length_pos.mpr hne
      rw [pitCount, if_neg h, ih hrest]
      omega

/-- Every stint in the loop's output is `simStint` of its own compound at
some lap budget. -/
lemma simGo_stints_mem (df : List DegRow) (tl : List (String × Nat)) (p : ℚ) :
    ∀ (seq : List String) (rem : Nat),
      ∀ s ∈ (simGo df tl p seq rem).2,
        ∃ rem0, s = simStint df tl s.compound rem0
  | [], _ => by simp [simGo]
  | c :: cs, rem => by
    rw [simGo]
    split
    · intro s hs
      rw [List.mem_singleton] at hs
      exact ⟨rem, by rw [hs, simStint_compound]⟩
    · intro s hs
      rcases List.mem_cons.mp hs with h | h
      · exact ⟨rem, by rw [h, simStint_compound]⟩
      · exact simGo_stints_mem df tl p cs (rem - (simStint df tl c rem).laps) s h

lemma linspaceQ_length (a b : ℚ) (n : Nat) : (linspaceQ a b n).length = n := by
  unfold linspaceQ
  split
  · simp [*]
  · split
    · simp [*]
    · rw [List.length_map, List.length_range]

/-- A compound absent from the table and from the tyre-life map gets the
default ten-lap life and the synthetic `linspace(90, 95, stint_len)`
curve. -/
lemma simStint_absent (df : List DegRow) (tl : List (String × Nat)) (c : String)
    (rem : Nat) (hdf : compoundRows df c = []) (htl : tl.lookup c = none) :
    simStint df tl c rem =
      { compound := c, laps := min 10 rem,
        time := (linspaceQ 90 95 (min 10 rem)).sum } := by
  unfold simStint
  rw [hdf, htl]
  simp only [Option.getD_none, List.map_nil, List.isEmpty_nil, if_true]
  rw [linspaceQ_length, if_neg (Nat.lt_irrefl _), List.take_of_length_le]
  rw [linspaceQ_length]

lemma simulate_strategy_stints (totalLaps : Nat) (seq : List String)
    (df : List DegRow) (p : ℚ) (tl : List (String × Nat)) :
    (simulate_strategy totalLaps seq df p (some tl)).stints =
      (simGo df tl p seq totalLaps).2 :=
  rfl

lemma simulate_strategy_total (totalLaps : Nat) (seq : List String)
    (df : List DegRow) (p : ℚ) (tl : List (String × Nat)) :
    (simulate_strategy totalLaps seq df p (some tl)).total_race_time_s =
      (simGo df tl p seq totalLaps).1 :=
  rfl

lemma simulate_strategy_sequence (totalLaps : Nat) (seq : List String)
    (df : List DegRow) (p : ℚ) (tl? : Option (List (String × Nat))) :
    (simulate_strategy totalLaps seq df p tl?).sequence = seq :=
  rfl

/-! ## Claim C1 -/

/-- C1, counterexample: with degradation table `{M: [(1, 90.0)]}`, tyre-life
map `{M: 3}`, `totalLaps = 30` and `pitLoss = 20`, the sequence `[M]` is a
single simulated stint of 270 s, yet the returned total is 290 s: the pit
loss IS charged after the final stint of the sequence because laps remain,
contradicting the claim that the total is the stint-time sum plus at most
(number of stints − 1) pit losses (here: at most zero pit losses). -/
theorem claim1_counterexample :
    simulate_strategy 30 ["M"] [{ compound := "M", lapIndex := 1, lapTime := 90 }]
        20 (some [("M", 3)]) =
      { total_race_time_s := 290,
        stints := [{ compound := "M", laps := 3, time := 270 }],
        sequence := ["M"] } ∧
    ((290 : ℚ) = 270 + 20 * ((1 : Nat) - 1 : Nat) → False) := by
  constructor
  · with_unfolding_all decide
  · intro h
    norm_num at h

/-- C1, amended: `simulate_strategy` charges the pit loss once after every
stint that leaves laps remaining — including the final stint of a sequence
exhausted with laps still to run — and never when the remaining laps reach
zero; hence the total race time is the stint-time sum plus `pitCount` pit
losses, `pitCount` never exceeds the number of stints run, and it equals
(number of stints − 1) exactly when the stint lengths consume `totalLaps`. -/
theorem claim1_pit_loss_accounting (totalLaps : Nat) (seq : List String)
    (df : List DegRow) (p : ℚ) (tl : List (String × Nat)) :
    (simulate_strategy totalLaps seq df p (some tl)).total_race_time_s =
      (((simulate_strategy totalLaps seq df p (some tl)).stints.map Stint.time).sum +
        p * pitCount totalLaps
          ((simulate_strategy totalLaps seq df p (some tl)).stints.map Stint.laps)) ∧
    pitCount totalLaps
        ((simulate_strategy totalLaps seq df p (some tl)).stints.map Stint.laps) ≤
      (simulate_strategy totalLaps seq df p (some tl)).stints.length ∧
    (((simulate_strategy totalLaps seq df p (some tl)).stints.map Stint.laps).sum =
        totalLaps →
      pitCount totalLaps
          ((simulate_strategy totalLaps seq df p (some tl)).stints.map Stint.laps) =
        (simulate_strategy totalLaps seq df p (some tl)).stints.length - 1) := by
  rw [simulate_strategy_total, simulate_strategy_stints]
  refine ⟨simGo_total df tl p seq totalLaps, ?_,
    simGo_pitCount_complete df tl p seq totalLaps⟩
  rw [← List.length_map _ Stint.laps]
  exact pitCount_le_length _ _

/-- C1, witness: a two-stint race that consumes all laps is charged exactly
one pit loss (stints of 3 and 2 laps over a 5-lap race). -/
theorem claim1_witness :
    pitCount 5 ((simulate_strategy 5 ["M", "H"]
        [{ compound := "M", lapIndex := 1, lapTime := 90 },
         { compound := "H", lapIndex := 1, lapTime := 92 }]
        20 (some [("M", 3), ("H", 4)])).stints.map Stint.laps) =
      (simulate_strategy 5 ["M", "H"]
        [{ compound := "M", lapIndex := 1, lapTime := 90 },
         { compound := "H", lapIndex := 1, lapTime := 92 }]
        20 (some [("M", 3), ("H", 4)])).stints.length - 1 :=
  (claim1_pit_loss_accounting 5 ["M", "H"]
    [{ compound := "M", lapIndex := 1, lapTime := 90 },
     { compound := "H", lapIndex := 1, lapTime := 92 }]
    20 [("M", 3), ("H", 4)]).2.2 (by with_unfolding_all decide)

/-! ## Claim C2 -/

/-- Every member of the `results` list of `recommend_optimal_strategy` is a
`simulate_strategy` run of a generated sequence with the adjusted pit loss
and tyre lives. -/
lemma mem_recommend_results {totalLaps : Nat} {df : List DegRow} {p : ℚ}
    {circuitType weather : String} {quali : Option Nat} {sim : SimResult}
    (h : sim ∈ recommend_results totalLaps df p circuitType weather quali) :
    ∃ n ∈ recommend_stint_counts circuitType quali,
      sim.sequence ∈ generate_compound_sequences (uniqueCompounds df) n weather ∧
      sim = simulate_strategy totalLaps sim.sequence df
        (recommend_pit_loss p weather quali) (some (recommend_tyre_life df weather)) := by
  unfold recommend_results at h
  rw [List.mem_flatten] at h
  obtain ⟨l, hl, hsim⟩ := h
  rw [List.mem_map] at hl
  obtain ⟨n, hn, rfl⟩ := hl
  rw [List.mem_map] at hsim
  obtain ⟨seq, hseq, rfl⟩ := hsim
  exact ⟨n, hn, by rw [simulate_strategy_sequence]; exact hseq,
    by rw [simulate_strategy_sequence]⟩

/-- C2, counterexample: degradation table
`{M: [(1,90),(2,96)], H: [(1,92),(2,97)]}` gives both compounds an estimated
tyre life of 2 laps; a dry, balanced-circuit call with `totalLaps = 30`
returns results, and both simulated sequences (`[M,H]` and `[H,M]`) have
stint lengths summing to 4, not 30. -/
theorem claim2_counterexample :
    (recommend_results 30
        [{ compound := "M", lapIndex := 1, lapTime := 90 },
         { compound := "M", lapIndex := 2, lapTime := 96 },
         { compound := "H", lapIndex := 1, lapTime := 92 },
         { compound := "H", lapIndex := 2, lapTime := 97 }]
        20 "balanced" "dry" none).map
        (fun r => ((r.stints.map Stint.laps).sum, r.sequence)) =
      [(4, ["M", "H"]), (4, ["H", "M"])] ∧
    (recommend_results 30
        [{ compound := "M", lapIndex := 1, lapTime := 90 },
         { compound := "M", lapIndex := 2, lapTime := 96 },
         { compound := "H", lapIndex := 1, lapTime := 92 },
         { compound := "H", lapIndex := 2, lapTime := 97 }]
        20 "balanced" "dry" none ≠ []) ∧
    (4 : Nat) ≠ 30 := by
  refine ⟨by with_unfolding_all decide, ?_, by decide⟩
  intro h
  have := congrArg (fun l => l.length) h
  revert this
  with_unfolding_all decide

/-- C2, amended: for every call of `recommend_optimal_strategy`, every legal
sequence it simulates has stint lengths (each stint being
`min(tyre life, laps remaining)`) summing to
`min(totalLaps, combined weather-adjusted tyre life of the sequence)` —
which is exactly `totalLaps` precisely when that combined life covers the
race distance. -/
theorem claim2_stint_length_sum (totalLaps : Nat) (df : List DegRow) (p : ℚ)
    (circuitType weather : String) (quali : Option Nat) (sim : SimResult)
    (h : sim ∈ recommend_results totalLaps df p circuitType weather quali) :
    (sim.stints.map Stint.laps).sum =
      min totalLaps
        ((sim.sequence.map
          (fun c => ((recommend_tyre_life df weather).lookup c).getD 10)).sum) ∧
    (totalLaps ≤
        (sim.sequence.map
          (fun c => ((recommend_tyre_life df weather).lookup c).getD 10)).sum →
      (sim.stints.map Stint.laps).sum = totalLaps) := by
  obtain ⟨n, _, _, hsim⟩ := mem_recommend_results h
  constructor
  · conv_lhs => rw [hsim]
    rw [simulate_strategy_stints]
    exact simGo_laps_sum df _ _ sim.sequence totalLaps
  · intro hcover
    conv_lhs => rw [hsim]
    rw [simulate_strategy_stints, simGo_laps_sum]
    omega

/-- C2, witness: with single-point curves `{M: [(1,90)], H: [(1,92)]}` the
estimated lives are 1 lap each, and the dry two-stint sequences of a
2-lap race consume exactly `totalLaps = 2`. -/
theorem claim2_witness :
    ((simulate_strategy 2 ["M", "H"]
        [{ compound := "M", lapIndex := 1, lapTime := 90 },
         { compound := "H", lapIndex := 1, lapTime := 92 }]
        (recommend_pit_loss 20 "dry" none)
        (some (recommend_tyre_life
          [{ compound := "M", lapIndex := 1, lapTime := 90 },
           { compound := "H", lapIndex := 1, lapTime := 92 }] "dry"))).stints.map
      Stint.laps).sum = 2 :=
  (claim2_stint_length_sum 2
    [{ compound := "M", lapIndex := 1, lapTime := 90 },
     { compound := "H", lapIndex := 1, lapTime := 92 }]
    20 "balanced" "dry" none _ (by with_unfolding_all decide)).2
    (by with_unfolding_all decide)

/-! ## Claim C9 -/

/-- C9: for a fixed race length, sequence, degradation table and tyre-life
map, the total race time of `simulate_strategy` is monotonically
non-decreasing in the pit loss. -/
theorem claim9_monotone_in_pit_loss (totalLaps : Nat) (seq : List String)
    (df : List DegRow) (tl? : Option (List (String × Nat))) (p1 p2 : ℚ)
    (h : p1 ≤ p2) :
    (simulate_strategy totalLaps seq df p1 tl?).total_race_time_s ≤
      (simulate_strategy totalLaps seq df p2 tl?).total_race_time_s := by
  show (simGo df (tl?.getD (estimate_tyre_life df)) p1 seq totalLaps).1 ≤
    (simGo df (tl?.getD (estimate_tyre_life df)) p2 seq totalLaps).1
  rw [simGo_total, simGo_total,
    simGo_stints_pit_indep df (tl?.getD (estimate_tyre_life df)) p1 p2 seq totalLaps]
  have hk : (0 : ℚ) ≤ (pitCount totalLaps
      ((simGo df (tl?.getD (estimate_tyre_life df)) p2 seq totalLaps).2.map
        Stint.laps) : ℚ) := by positivity
  exact add_le_add_left (mul_le_mul_of_nonneg_right h hk) _

/-- C9, witness: raising the pit loss from 20 s to 30 s does not decrease
the simulated total on a concrete two-stint race. -/
theorem claim9_witness :
    (simulate_strategy 5 ["M", "H"]
        [{ compound := "M", lapIndex := 1, lapTime := 90 },
         { compound := "H", lapIndex := 1, lapTime := 92 }]
        20 (some [("M", 3), ("H", 4)])).total_race_time_s ≤
      (simulate_strategy 5 ["M", "H"]
        [{ compound := "M", lapIndex := 1, lapTime := 90 },
         { compound := "H", lapIndex := 1, lapTime := 92 }]
        30 (some [("M", 3), ("H", 4)])).total_race_time_s :=
  claim9_monotone_in_pit_loss 5 ["M", "H"]
    [{ compound := "M", lapIndex := 1, lapTime := 90 },
     { compound := "H", lapIndex := 1, lapTime := 92 }]
    (some [("M", 3), ("H", 4)]) 20 30 (by norm_num)

/-! ## Claim C10 -/

/-- C10: a compound of the sequence absent from both the degradation table
and the tyre-life map is simulated without failure: its stint gets the
default 10-lap tyre life (`min 10 remaining` laps) and its lap times are
the synthetic `np.linspace(90, 95, stint_len)` curve.  (The embedded
`simulate_strategy` is a total function, so the absence of an exception is
inherent; the content is the default life and the synthetic curve.) -/
theorem claim10_missing_compound_fallback (totalLaps : Nat) (seq : List String)
    (df : List DegRow) (p : ℚ) (tl : List (String × Nat)) (c : String)
    (hdf : ∀ r ∈ df, r.compound ≠ c) (htl : tl.lookup c = none) :
    ∀ s ∈ (simulate_strategy totalLaps seq df p (some tl)).stints,
      s.compound = c →
        (∃ rem0, s.laps = min 10 rem0) ∧ s.laps ≤ 10 ∧
        s.time = (linspaceQ 90 95 s.laps).sum := by
  have hrows : compoundRows df c = [] := by
    rw [compoundRows, List.filter_eq_nil_iff]
    intro r hr
    simpa using hdf r hr
  intro s hs hc
  rw [simulate_strategy_stints] at hs
  obtain ⟨rem0, hrem⟩ := simGo_stints_mem df tl p seq totalLaps s hs
  rw [hc] at hrem
  rw [hrem, simStint_absent df tl c rem0 hrows htl]
  exact ⟨⟨rem0, rfl⟩, Nat.min_le_left _ _, rfl⟩

/-- C10, witness: in the sequence `[M, X]` over a table and life map that
only know `M`, the `X` stint of a 10-lap race runs `min 10 5 = 5` laps on
the synthetic 90–95 s curve (total 462.5 s). -/
theorem claim10_witness :
    (5 : Nat) ≤ 10 ∧
    ({ compound := "X", laps := 5, time := 925 / 2 } : Stint).time =
      (linspaceQ 90 95 ({ compound := "X", laps := 5, time := 925 / 2 } : Stint).laps).sum := by
  have h := claim10_missing_compound_fallback 10 ["M", "X"]
    [{ compound := "M", lapIndex := 1, lapTime := 90 }] 20 [("M", 5)] "X"
    (by intro r hr; fin_cases hr; decide) rfl
    { compound := "X", laps := 5, time := 925 / 2 }
    (by with_unfolding_all decide) rfl
  exact ⟨h.2.1, h.2.2⟩

/-! ## Claim C5 -/

/-- Membership in the `itertools.product` model: exactly the lists of the
requested length over the available compounds. -/
lemma mem_seqProd (compounds : List String) :
    ∀ (n : Nat) (s : List String),
      s ∈ seqProd compounds n ↔ (s.length = n ∧ ∀ x ∈ s, x ∈ compounds)
  | 0, s => by
    simp only [seqProd, List.mem_singleton, List.length_eq_zero]
    constructor
    · rintro rfl
      simp
    · rintro ⟨rfl, _⟩
      rfl
  | n + 1, s => by
    simp only [seqProd, List.mem_flatten, List.mem_map]
    constructor
    · rintro ⟨l, ⟨c, hc, rfl⟩, hs⟩
      rw [List.mem_map] at hs
      obtain ⟨t, ht, rfl⟩ := hs
      obtain ⟨hlen, hmem⟩ := (mem_seqProd compounds n t).mp ht
      refine ⟨by simp [hlen], ?_⟩
      intro x hx
      rcases List.mem_cons.mp hx with rfl | hx
      · exact hc
      · exact hmem x hx
    · rintro ⟨hlen, hmem⟩
      match s, hlen with
      | c :: t, hlen =>
        refine ⟨(seqProd compounds n).map (fun s => c :: s),
          ⟨c, hmem c (List.mem_cons_self _ _), rfl⟩, ?_⟩
        rw [List.mem_map]
        refine ⟨t, (mem_seqProd compounds n t).mpr ⟨by simpa using hlen, ?_⟩, rfl⟩
        intro x hx
        exact hmem x (List.mem_cons_of_mem c hx)

/-- `len(set(seq)) >= 2` holds exactly when the list has two distinct
members. -/
lemma two_le_dedup_length_iff (l : List String) :
    2 ≤ l.dedup.length ↔ ∃ a ∈ l, ∃ b ∈ l, a ≠ b := by
  constructor
  · intro h
    match hd : l.dedup with
    | [] => rw [hd] at h; simp at h
    | [x] => rw [hd] at h; simp at h
    | x :: y :: t =>
      have hnd := l.nodup_dedup
      rw [hd] at hnd
      have hxy : x ≠ y := by
        intro hxy
        rw [hxy] at hnd
        exact (List.nodup_cons.mp hnd).1 (List.mem_cons_self _ _)
      have hx : x ∈ l := by
        rw [← List.mem_dedup, hd]; exact List.mem_cons_self _ _
      have hy : y ∈ l := by
        rw [← List.mem_dedup, hd]
        exact List.mem_cons_of_mem x (List.mem_cons_self _ _)
      exact ⟨x, hx, y, hy, hxy⟩
  · rintro ⟨a, ha, b, hb, hab⟩
    by_contra h
    rw [not_le] at h
    interval_cases hlen : l.dedup.length
    · rw [List.length_eq_zero] at hlen
      rw [List.dedup_eq_nil] at hlen
      rw [hlen] at ha
      exact absurd ha (List.not_mem_nil a)
    · rw [List.length_eq_one] at hlen
      obtain ⟨x, hx⟩ := hlen
      have ha' : a = x := by
        have := (List.mem_dedup).mpr ha
        rw [hx] at this
        exact List.mem_singleton.mp this
      have hb' : b = x := by
        have := (List.mem_dedup).mpr hb
        rw [hx] at this
        exact List.mem_singleton.mp this
      exact hab (ha'.trans hb'.symm)

/-- C5: a sequence is generated for dry weather exactly when it is an
ordered sequence of the requested length over the available compounds
using at least two distinct compounds (hence no dry one-stint sequence is
ever generated), and for any non-dry weather exactly when it is any
ordered sequence of the requested length over the available compounds. -/
theorem claim5_sequence_legality (compounds : List String) (n : Nat)
    (w : String) (s : List String) :
    (s ∈ generate_compound_sequences compounds n "dry" ↔
      (s.length = n ∧ (∀ x ∈ s, x ∈ compounds) ∧ ∃ a ∈ s, ∃ b ∈ s, a ≠ b)) ∧
    (w ≠ "dry" →
      (s ∈ generate_compound_sequences compounds n w ↔
        (s.length = n ∧ ∀ x ∈ s, x ∈ compounds))) ∧
    generate_compound_sequences compounds 1 "dry" = [] := by
  refine ⟨?_, ?_, ?_⟩
  · unfold generate_compound_sequences
    rw [if_pos (by rfl)]
    rw [List.mem_filter, mem_seqProd]
    constructor
    · rintro ⟨⟨h1, h2⟩, h3⟩
      exact ⟨h1, h2, (two_le_dedup_length_iff s).mp (by simpa using h3)⟩
    · rintro ⟨h1, h2, h3⟩
      exact ⟨⟨h1, h2⟩, by simpa using (two_le_dedup_length_iff s).mpr h3⟩
  · intro hw
    unfold generate_compound_sequences
    rw [if_neg (by simpa using hw)]
    exact mem_seqProd compounds n s
  · unfold generate_compound_sequences
    rw [if_pos (by rfl)]
    rw [List.filter_eq_nil_iff]
    intro t ht
    have hlen : t.length = 1 := ((mem_seqProd compounds 1 t).mp ht).1
    have hle : t.dedup.length ≤ 1 := hlen ▸ t.dedup_sublist.length_le
    simp only [decide_eq_true_eq]
    omega

/-- C5, witness: over compounds `[M, H]` with two stints, `[M, H]` is legal
in dry weather while in wet weather the single-compound `[M, M]` is also
legal. -/
theorem claim5_witness :
    ["M", "H"] ∈ generate_compound_sequences ["M", "H"] 2 "dry" ∧
    ["M", "M"] ∈ generate_compound_sequences ["M", "H"] 2 "wet" := by
  constructor
  · exact (claim5_sequence_legality ["M", "H"] 2 "wet" ["M", "H"]).1.mpr
      (by refine ⟨rfl, by decide, "M", by decide, "H", by decide, by decide⟩)
  · exact ((claim5_sequence_legality ["M", "H"] 2 "wet" ["M", "M"]).2.1
      (by decide)).mpr (by exact ⟨rfl, by decide⟩)

/-! ## Claim C4 -/

lemma le_foldl_max : ∀ (l : List Nat) (i : Nat), i ≤ l.foldl max i
  | [], _ => Nat.le_refl _
  | x :: xs, i =>
    Nat.le_trans (Nat.le_max_left i x) (le_foldl_max xs (max i x))

lemma mem_le_foldl_max : ∀ (l : List Nat) (i a : Nat), a ∈ l → a ≤ l.foldl max i
  | [], _, a, h => absurd h (List.not_mem_nil a)
  | x :: xs, i, a, h => by
    rcases List.mem_cons.mp h with rfl | h
    · exact Nat.le_trans (Nat.le_max_right i a) (le_foldl_max xs (max i a))
    · exact mem_le_foldl_max xs (max i x) a h

lemma le_natMax_of_mem {a : Nat} {l : List Nat} (h : a ∈ l) : a ≤ natMax l :=
  mem_le_foldl_max l 0 a h

/-- In a list whose keys are strictly increasing, everything before the
first element kept by a filter fails the filter predicate. -/
lemma filter_head_least {α : Type} (key : α → Nat) (p : α → Bool) :
    ∀ (l : List α), (l.map key).Pairwise (· < ·) →
      ∀ e es, l.filter p = e :: es →
        ∀ r ∈ l, key r < key e → p r = false
  | [], _, e, es, hfil => by simp at hfil
  | a :: t, hsort, e, es, hfil => by
    rw [List.map_cons, List.pairwise_cons] at hsort
    obtain ⟨hhead, htail⟩ := hsort
    intro r hr hlt
    rw [List.filter_cons] at hfil
    by_cases hpa : p a = true
    · rw [if_pos hpa] at hfil
      have he : a = e := (List.cons_eq_cons.mp hfil).1
      subst he
      rcases List.mem_cons.mp hr with rfl | hrt
      · exact absurd hlt (lt_irrefl _)
      · exfalso
        have := hhead (key r) (List.mem_map_of_mem key hrt)
        omega
    · rw [if_neg hpa] at hfil
      rcases List.mem_cons.mp hr with rfl | hrt
      · simpa using hpa
      · exact filter_head_least key p t htail e es hfil r hrt hlt

/-- The loop body of `estimate_tyre_life` on a non-empty compound group
with strictly increasing lap indices: the result is bounded by the first
and the maximal lap index, and is either the least lap index whose mean
lap time exceeds `base * 1.05`, or the maximal lap index when nothing
exceeds the threshold. -/
lemma tyreLifeAux_spec (r0 : DegRow) (rs0 : List DegRow)
    (hsort : (((r0 :: rs0).map DegRow.lapIndex)).Pairwise (· < ·)) :
    (r0.lapIndex ≤ tyreLifeAux (r0 :: rs0) ∧
      tyreLifeAux (r0 :: rs0) ≤ natMax ((r0 :: rs0).map DegRow.lapIndex)) ∧
    ((∃ e ∈ r0 :: rs0, e.lapIndex = tyreLifeAux (r0 :: rs0) ∧
        r0.lapTime * (21 / 20) < e.lapTime ∧
        ∀ r ∈ r0 :: rs0, r.lapIndex < tyreLifeAux (r0 :: rs0) →
          ¬(r0.lapTime * (21 / 20) < r.lapTime)) ∨
      ((∀ r ∈ r0 :: rs0, ¬(r0.lapTime * (21 / 20) < r.lapTime)) ∧
        tyreLifeAux (r0 :: rs0) = natMax ((r0 :: rs0).map DegRow.lapIndex))) := by
  have hmain : tyreLifeAux (r0 :: rs0) =
      match (r0 :: rs0).filter (fun x => decide (r0.lapTime * (21 / 20) < x.lapTime)) with
      | [] => natMax ((r0 :: rs0).map (fun x => x.lapIndex))
      | e :: _ => e.lapIndex := rfl
  rcases hfil : (r0 :: rs0).filter
      (fun x => decide (r0.lapTime * (21 / 20) < x.lapTime)) with _ | ⟨e, es⟩
  · rw [hmain, hfil]
    have hall : ∀ r ∈ r0 :: rs0, ¬(r0.lapTime * (21 / 20) < r.lapTime) := by
      intro r hr
      have := List.filter_eq_nil_iff.mp hfil r hr
      simpa using this
    refine ⟨⟨?_, Nat.le_refl _⟩, Or.inr ⟨hall, rfl⟩⟩
    exact le_natMax_of_mem (List.mem_map_of_mem _ (List.mem_cons_self _ _))
  · rw [hmain, hfil]
    have hmem : e ∈ r0 :: rs0 := List.mem_of_mem_filter (hfil ▸ List.mem_cons_self _ _)
    have hexc : r0.lapTime * (21 / 20) < e.lapTime := by
      have := List.of_mem_filter (hfil ▸ (List.mem_cons_self e es))
      simpa using this
    have hleast : ∀ r ∈ r0 :: rs0, r.lapIndex < e.lapIndex →
        ¬(r0.lapTime * (21 / 20) < r.lapTime) := by
      intro r hr hlt hcontra
      have := filter_head_least DegRow.lapIndex
        (fun x => decide (r0.lapTime * (21 / 20) < x.lapTime))
        (r0 :: rs0) hsort e es hfil r hr hlt
      simp only [decide_eq_false_iff_not] at this
      exact this hcontra
    refine ⟨⟨?_, le_natMax_of_mem (List.mem_map_of_mem _ hmem)⟩,
      Or.inl ⟨e, hmem, rfl, hexc, hleast⟩⟩
    rcases List.mem_cons.mp hmem with rfl | hrs
    · exact Nat.le_refl _
    · rw [List.map_cons, List.pairwise_cons] at hsort
      exact Nat.le_of_lt (hsort.1 e.lapIndex (List.mem_map_of_mem _ hrs))

lemma mem_firstUnique : ∀ (l : List String) (a : String),
    a ∈ firstUnique l ↔ a ∈ l
  | [] , a => by rw [firstUnique]
  | x :: xs, a => by
    rw [firstUnique]
    by_cases hax : a = x
    · subst hax
      simp
    · rw [List.mem_cons, List.mem_cons]
      constructor
      · rintro (rfl | h)
        · exact Or.inl rfl
        · rcases (mem_firstUnique _ a).mp h with h2
          exact Or.inr (List.mem_of_mem_filter h2)
      · rintro (rfl | h)
        · exact Or.inl rfl
        · refine Or.inr ((mem_firstUnique _ a).mpr ?_)
          rw [List.mem_filter]
          exact ⟨h, by simpa using hax⟩
termination_by l => l.length
decreasing_by
  all_goals exact Nat.lt_succ_of_le (List.length_filter_le _ _)

lemma lookup_map_pair (f : String → Nat) :
    ∀ (l : List String) (c : String), c ∈ l →
      (l.map (fun x => (x, f x))).lookup c = some (f c)
  | [], c, h => absurd h (List.not_mem_nil c)
  | x :: xs, c, h => by
    rw [List.map_cons]
    by_cases hcx : c = x
    · subst hcx
      simp [List.lookup]
    · have hbeq : (c == x) = false := by simpa using hcx
      rw [List.lookup, hbeq]
      rcases List.mem_cons.mp h with rfl | h2
      · exact absurd rfl hcx
      · exact lookup_map_pair f xs c h2

/-- `estimate_tyre_life` maps every compound present in the table to its
`tyre_life_of` value. -/
lemma estimate_tyre_life_lookup {df : List DegRow} {c : String}
    (h : ∃ r ∈ df, r.compound = c) :
    (estimate_tyre_life df).lookup c = some (tyre_life_of df c) := by
  obtain ⟨r, hr, rfl⟩ := h
  exact lookup_map_pair (tyre_life_of df) (uniqueCompounds df) r.compound
    ((mem_firstUnique _ _).mpr (List.mem_map_of_mem _ hr))

/-- C4: for every compound of the table whose degradation rows satisfy the
degradation-curve invariant (strictly increasing lap indices starting at
lap index 1), the estimated tyre life is the least lap index whose mean
lap time strictly exceeds 1.05 times the lap-index-1 value — or the
maximal observed lap index when nothing exceeds the threshold — and it
always lies between 1 and the maximal observed lap index. -/
theorem claim4_tyre_life_estimate (df : List DegRow) (c : String)
    (hne : compoundRows df c ≠ [])
    (hsort : ((compoundRows df c).map DegRow.lapIndex).Pairwise (· < ·))
    (hfirst : ((compoundRows df c).map DegRow.lapIndex).head? = some 1) :
    (estimate_tyre_life df).lookup c = some (tyre_life_of df c) ∧
    1 ≤ tyre_life_of df c ∧
    tyre_life_of df c ≤ natMax ((compoundRows df c).map DegRow.lapIndex) ∧
    ∀ r0 ∈ compoundRows df c, r0.lapIndex = 1 →
      ((∃ e ∈ compoundRows df c, e.lapIndex = tyre_life_of df c ∧
          r0.lapTime * (21 / 20) < e.lapTime ∧
          ∀ r ∈ compoundRows df c, r.lapIndex < tyre_life_of df c →
            ¬(r0.lapTime * (21 / 20) < r.lapTime)) ∨
        ((∀ r ∈ compoundRows df c, ¬(r0.lapTime * (21 / 20) < r.lapTime)) ∧
          tyre_life_of df c = natMax ((compoundRows df c).map DegRow.lapIndex))) := by
  rcases hgrp : compoundRows df c with _ | ⟨rh, rt⟩
  · exact absurd hgrp hne
  have hlookup : (estimate_tyre_life df).lookup c = some (tyre_life_of df c) := by
    refine estimate_tyre_life_lookup ⟨rh, ?_, ?_⟩
    · exact List.mem_of_mem_filter (hgrp ▸ List.mem_cons_self _ _)
    · have := List.of_mem_filter (hgrp ▸ (List.mem_cons_self rh rt))
      simpa using this
  rw [hgrp] at hsort hfirst
  have hfirst1 : rh.lapIndex = 1 := by
    rw [List.map_cons, List.head?_cons, Option.some_inj] at hfirst
    exact hfirst
  have hspec := tyreLifeAux_spec rh rt hsort
  have hlife : tyre_life_of df c = tyreLifeAux (rh :: rt) := by
    rw [tyre_life_of, hgrp]
  refine ⟨hlookup, ?_, ?_, ?_⟩
  · rw [hlife]
    have := hspec.1.1
    omega
  · rw [hlife]
    exact hspec.1.2
  · intro r0 hr0 hr0idx
    have hr0h : r0 = rh := by
      rcases List.mem_cons.mp hr0 with rfl | hrt
      · rfl
      · exfalso
        rw [List.map_cons, List.pairwise_cons] at hsort
        have := hsort.1 r0.lapIndex (List.mem_map_of_mem _ hrt)
        omega
    subst hr0h
    rw [hlife]
    exact hspec.2

/-- C4, witness: curve `{S: [(1,90),(2,93),(3,96)]}` has threshold
`94.5`; the first exceeding lap index is 3, within `[1, 3]`. -/
theorem claim4_witness :
    (estimate_tyre_life
        [{ compound := "S", lapIndex := 1, lapTime := 90 },
         { compound := "S", lapIndex := 2, lapTime := 93 },
         { compound := "S", lapIndex := 3, lapTime := 96 }]).lookup "S" =
      some (tyre_life_of
        [{ compound := "S", lapIndex := 1, lapTime := 90 },
         { compound := "S", lapIndex := 2, lapTime := 93 },
         { compound := "S", lapIndex := 3, lapTime := 96 }] "S") ∧
    1 ≤ tyre_life_of
        [{ compound := "S", lapIndex := 1, lapTime := 90 },
         { compound := "S", lapIndex := 2, lapTime := 93 },
         { compound := "S", lapIndex := 3, lapTime := 96 }] "S" := by
  have h := claim4_tyre_life_estimate
    [{ compound := "S", lapIndex := 1, lapTime := 90 },
     { compound := "S", lapIndex := 2, lapTime := 93 },
     { compound := "S", lapIndex := 3, lapTime := 96 }] "S"
    (by with_unfolding_all decide)
    (by with_unfolding_all decide)
    (by with_unfolding_all decide)
  exact ⟨h.1, h.2.1⟩

/-! ## Claim C6 -/

lemma foldl_min_le_init : ∀ (l : List ℚ) (i : ℚ), l.foldl min i ≤ i
  | [], _ => le_refl _
  | x :: xs, i =>
    le_trans (foldl_min_le_init xs (min i x)) (min_le_left i x)

lemma foldl_min_le_mem : ∀ (l : List ℚ) (i a : ℚ), a ∈ l → l.foldl min i ≤ a
  | [], _, a, h => absurd h (List.not_mem_nil a)
  | x :: xs, i, a, h => by
    rcases List.mem_cons.mp h with rfl | h
    · exact le_trans (foldl_min_le_init xs (min i a)) (min_le_right i a)
    · exact foldl_min_le_mem xs (min i x) a h

lemma minQ_le_mem {l : List ℚ} {a : ℚ} (h : a ∈ l) : minQ l ≤ a := by
  match l, h with
  | x :: xs, h =>
    rcases List.mem_cons.mp h with rfl | h
    · exact foldl_min_le_init xs a
    · exact foldl_min_le_mem xs x a h

lemma foldl_min_mem : ∀ (l : List ℚ) (i : ℚ), l.foldl min i ∈ i :: l
  | [], i => List.mem_cons_self _ _
  | x :: xs, i => by
    rw [List.foldl_cons]
    have h := foldl_min_mem xs (min i x)
    rcases List.mem_cons.mp h with he | hm
    · rw [he]
      rcases min_choice i x with hc | hc
      · rw [hc]
        exact List.mem_cons_self _ _
      · rw [hc]
        exact List.mem_cons_of_mem i (List.mem_cons_self _ _)
    · exact List.mem_cons_of_mem i (List.mem_cons_of_mem x hm)

lemma minQ_mem {l : List ℚ} (h : l ≠ []) : minQ l ∈ l := by
  match l, h with
  | x :: xs, _ => exact foldl_min_mem xs x

/-- C6, counterexample: an empty frame with both required columns absent is
returned unchanged as an (empty) success, not as the descriptive error the
claim requires whenever a column is absent — the emptiness check precedes
the column check. -/
theorem claim6_counterexample :
    compute_gap_to_leader false false [] = .ok [] ∧
    (compute_gap_to_leader false false []).isOk = true := by
  constructor <;> with_unfolding_all decide

/-- C6, amended: an empty input is returned as an empty success even when
the columns are absent; a NON-empty input missing `RaceTime_s` or
`LapNumber` raises the descriptive error; and when both columns are
present, every output row's gap is its race time minus its lap's minimum
race time, hence non-negative, with some row of the same lap at exactly
zero. -/
theorem claim6_gap_to_leader (hasRaceTime hasLapNumber : Bool)
    (rows : List GRow) :
    (compute_gap_to_leader hasRaceTime hasLapNumber [] = .ok []) ∧
    (rows ≠ [] → (hasRaceTime = false ∨ hasLapNumber = false) →
      compute_gap_to_leader hasRaceTime hasLapNumber rows =
        .error "stints must contain RaceTime_s and LapNumber") ∧
    (∀ out, compute_gap_to_leader true true rows = .ok out →
      ∀ o ∈ out,
        o.gapToLeader = o.raceTime - leaderTimeAt rows o.lapNumber ∧
        0 ≤ o.gapToLeader ∧
        ∃ o2 ∈ out, o2.lapNumber = o.lapNumber ∧ o2.gapToLeader = 0) := by
  refine ⟨rfl, ?_, ?_⟩
  · intro hne hflag
    unfold compute_gap_to_leader
    rw [if_neg (by simpa using hne), if_pos]
    rcases hflag with h | h <;> rw [h] <;> simp
  · intro out hout o ho
    rcases hrows : rows with _ | ⟨r1, rrest⟩
    · subst hrows
      rw [show compute_gap_to_leader true true [] = .ok [] from rfl,
        Except.ok.injEq] at hout
      subst hout
      exact absurd ho (List.not_mem_nil o)
    subst hrows
    unfold compute_gap_to_leader at hout
    rw [if_neg (by simp), if_neg (by simp), Except.ok.injEq] at hout
    subst hout
    rw [List.mem_map] at ho
    obtain ⟨r, hr, rfl⟩ := ho
    have hrfilter : r ∈ (r1 :: rrest).filter (fun x => x.lapNumber == r.lapNumber) := by
      rw [List.mem_filter]
      exact ⟨hr, by simp⟩
    have hmem : r.raceTime ∈
        ((r1 :: rrest).filter (fun x => x.lapNumber == r.lapNumber)).map
          (fun x => x.raceTime) :=
      List.mem_map_of_mem _ hrfilter
    refine ⟨rfl, ?_, ?_⟩
    · have := minQ_le_mem hmem
      show (0 : ℚ) ≤ r.raceTime - leaderTimeAt (r1 :: rrest) r.lapNumber
      rw [leaderTimeAt]
      linarith
    · have hne2 : ((r1 :: rrest).filter
          (fun x => x.lapNumber == r.lapNumber)).map (fun x => x.raceTime) ≠ [] := by
        intro hnil
        rw [hnil] at hmem
        exact List.not_mem_nil _ hmem
      have hminmem := minQ_mem hne2
      rw [List.mem_map] at hminmem
      obtain ⟨r2, hr2f, hr2min⟩ := hminmem
      have hr2lap : r2.lapNumber = r.lapNumber := by
        have := List.of_mem_filter hr2f
        simpa using this
      refine ⟨GOut.mk r2.driver r2.lapNumber r2.raceTime
          (leaderTimeAt (r1 :: rrest) r2.lapNumber)
          (r2.raceTime - leaderTimeAt (r1 :: rrest) r2.lapNumber),
        ?_, hr2lap, ?_⟩
      · rw [List.mem_map]
        exact ⟨r2, List.mem_of_mem_filter hr2f, rfl⟩
      · show r2.raceTime - leaderTimeAt (r1 :: rrest) r2.lapNumber = 0
        rw [hr2lap, leaderTimeAt, hr2min]
        ring

/-- C6, witness: on laps `{A: 100 s, B: 95 s}` of lap 1, driver A's gap to
the leader is non-negative and some driver of that lap sits at exactly
zero. -/
theorem claim6_witness :
    (0 : ℚ) ≤ (GOut.mk "A" 1 100 95 5).gapToLeader ∧
    ∃ o2 ∈ [GOut.mk "A" 1 100 95 5, GOut.mk "B" 1 95 95 0],
      o2.lapNumber = (GOut.mk "A" 1 100 95 5).lapNumber ∧
      o2.gapToLeader = 0 := by
  have h := (claim6_gap_to_leader true true
    [GRow.mk "A" 1 100, GRow.mk "B" 1 95]).2.2
    [GOut.mk "A" 1 100 95 5, GOut.mk "B" 1 95 95 0]
    (by with_unfolding_all decide)
    (GOut.mk "A" 1 100 95 5)
    (by with_unfolding_all decide)
  exact ⟨h.2.1, h.2.2⟩

/-! ## Claim C8 -/

/-- C8: a compound with exactly one degradation data point makes the
undercut payoff simulation succeed (given the rival compound has data, a
positive requested race length, and 1-based lap indices), and the per-lap
curve built for that compound is flat — its single value repeated for the
whole (resolved) race length. -/
theorem claim8_single_point_flat (df : List DegRow) (c cb : String)
    (r : DegRow) (u T0 : Nat) (p : ℚ)
    (hc : compoundRows df c = [r]) (hb : compoundRows df cb ≠ [])
    (hT : 1 ≤ T0) (hidx : 1 ≤ r.lapIndex) :
    get_deg_curve df (resolved_total_laps df T0) c =
      .ok (List.replicate (resolved_total_laps df T0) r.lapTime) ∧
    (simulate_undercut_vs_overcut df c cb u T0 p).isOk = true := by
  have hrmem : r ∈ compoundRows df c := by
    rw [hc]
    exact List.mem_cons_self _ _
  have hrdf : r ∈ df := List.mem_of_mem_filter hrmem
  have hmax : 1 ≤ natMax (df.map (fun x => x.lapIndex)) :=
    le_trans hidx (le_natMax_of_mem (List.mem_map_of_mem _ hrdf))
  have htot : 1 ≤ resolved_total_laps df T0 := by
    rw [resolved_total_laps]
    split <;> omega
  have hcurveC : get_deg_curve df (resolved_total_laps df T0) c =
      .ok (List.replicate (resolved_total_laps df T0) r.lapTime) := by
    unfold get_deg_curve
    rw [hc]
  refine ⟨hcurveC, ?_⟩
  obtain ⟨lb, hcurveB⟩ :
      ∃ l, get_deg_curve df (resolved_total_laps df T0) cb = .ok l := by
    unfold get_deg_curve
    rcases hshape : compoundRows df cb with _ | ⟨x, _ | ⟨y, t⟩⟩
    · exact absurd hshape hb
    · exact ⟨_, rfl⟩
    · exact ⟨_, rfl⟩
  have hne : df.isEmpty = false := by
    rcases df with _ | _
    · simp at hrdf
    · rfl
  unfold simulate_undercut_vs_overcut
  rw [hne]
  simp only [Bool.false_eq_true, if_false]
  rw [if_neg (by omega)]
  rw [hcurveC, hcurveB]
  rfl

/-- C8, witness: compound A of `{A: [(1,90)], B: [(1,92),(3,94)]}` has one
data point; the simulation (clamped to 3 laps) succeeds and A's curve is
`[90, 90, 90]`. -/
theorem claim8_witness :
    get_deg_curve
        [DegRow.mk "A" 1 90, DegRow.mk "B" 1 92, DegRow.mk "B" 3 94]
        (resolved_total_laps
          [DegRow.mk "A" 1 90, DegRow.mk "B" 1 92, DegRow.mk "B" 3 94] 60) "A" =
      .ok (List.replicate (resolved_total_laps
        [DegRow.mk "A" 1 90, DegRow.mk "B" 1 92, DegRow.mk "B" 3 94] 60) (90 : ℚ)) ∧
    (simulate_undercut_vs_overcut
        [DegRow.mk "A" 1 90, DegRow.mk "B" 1 92, DegRow.mk "B" 3 94]
        "A" "B" 2 60 20).isOk = true :=
  claim8_single_point_flat
    [DegRow.mk "A" 1 90, DegRow.mk "B" 1 92, DegRow.mk "B" 3 94]
    "A" "B" (DegRow.mk "A" 1 90) 2 60 20
    (by with_unfolding_all decide)
    (by with_unfolding_all decide)
    (by decide) (by decide)

/-! ## Claim C7 -/

lemma optPrefixSums_getLast? : ∀ (l : List (Option ℚ)) (s : Option ℚ), l ≠ [] →
    (optPrefixSums s l).getLast? = some (l.foldl optAdd s)
  | [], _, h => absurd rfl h
  | [_], _, _ => rfl
  | x :: y :: ys, s, _ => by
    have ih := optPrefixSums_getLast? (y :: ys) (optAdd s x) (by simp)
    show ((optAdd s x) :: optPrefixSums (optAdd s x) (y :: ys)).getLast? = _
    rw [show optPrefixSums (optAdd s x) (y :: ys) =
        (optAdd (optAdd s x) y) :: optPrefixSums (optAdd (optAdd s x) y) ys from rfl]
    rw [List.getLast?_cons_cons]
    rw [← show optPrefixSums (optAdd s x) (y :: ys) =
        (optAdd (optAdd s x) y) :: optPrefixSums (optAdd (optAdd s x) y) ys from rfl]
    rw [ih]
    rfl

lemma except_bind_ok {ε α β : Type} (a : α) (f : α → Except ε β) :
    (do
      let x ← (Except.ok a : Except ε α)
      f x) = f a :=
  rfl

lemma except_bind_error {ε α β : Type} (e : ε) (f : α → Except ε β) :
    (do
      let x ← (Except.error e : Except ε α)
      f x) = Except.error e :=
  rfl

lemma simLapTimeVal_backfill (laps : List ULap) (who : String)
    (pits : List Nat) (delta : ℚ) (lap : Nat)
    (hobs : obsTimeVal laps who lap = none) (hpit : lap ∉ pits) :
    simLapTimeVal laps who pits delta lap = nanmeanOf laps who := by
  rw [simLapTimeVal, hobs, simLapTimeTail]
  simp only [if_neg hpit]

lemma simLapTimeVal_pit_missing (laps : List ULap) (who : String)
    (pits : List Nat) (delta : ℚ) (lap : Nat)
    (hobs : obsTimeVal laps who lap = none) (hpit : lap ∈ pits) :
    simLapTimeVal laps who pits delta lap = some delta := by
  rw [simLapTimeVal, hobs, simLapTimeTail]
  simp only [if_pos hpit]

/-- A table whose per-driver lap numbers are unique has at most one row
matching any `(Driver, LapNumber)` pair. -/
lemma filter_pair_small (laps : List ULap)
    (hnd : laps.Pairwise
      (fun a b => a.driver = b.driver → a.lapNumber ≠ b.lapNumber))
    (who : String) (lap : Nat) :
    laps.filter (fun r => r.driver == who && r.lapNumber == lap) = [] ∨
    ∃ r, laps.filter (fun r => r.driver == who && r.lapNumber == lap) = [r] := by
  rcases hfil : laps.filter (fun r => r.driver == who && r.lapNumber == lap)
    with _ | ⟨a, _ | ⟨b, t⟩⟩
  · exact Or.inl hfil
  · exact Or.inr ⟨a, hfil⟩
  · exfalso
    have hp : (laps.filter (fun r => r.driver == who && r.lapNumber == lap)).Pairwise
        (fun a b => a.driver = b.driver → a.lapNumber ≠ b.lapNumber) :=
      List.Pairwise.sublist (List.filter_sublist laps) hnd
    rw [hfil, List.pairwise_cons] at hp
    have hab := hp.1 b (List.mem_cons_self _ _)
    have ha : a.driver = who ∧ a.lapNumber = lap := by
      have := List.of_mem_filter (hfil ▸ (List.mem_cons_self a (b :: t)))
      simpa using this
    have hb : b.driver = who ∧ b.lapNumber = lap := by
      have := List.of_mem_filter
        (hfil ▸ List.mem_cons_of_mem a (List.mem_cons_self b t))
      simpa using this
    exact hab (ha.1.trans hb.1.symm) (ha.2.trans hb.2.symm)

lemma find?_of_filter_singleton {α : Type} (p : α → Bool) :
    ∀ (l : List α) (r : α), l.filter p = [r] → l.find? p = some r
  | [], r, h => by simp at h
  | a :: t, r, h => by
    rw [List.filter_cons] at h
    by_cases hpa : p a = true
    · rw [if_pos hpa] at h
      rw [List.find?_cons_of_pos _ hpa]
      exact congrArg some (List.cons_eq_cons.mp h).1
    · rw [if_neg hpa] at h
      rw [List.find?_cons_of_neg _ hpa]
      exact find?_of_filter_singleton p t r h

/-- On a table with per-driver-unique lap numbers the observed-time lookup
cannot raise: it yields `obsTimeVal`. -/
lemma obsTime_ok (laps : List ULap)
    (hnd : laps.Pairwise
      (fun a b => a.driver = b.driver → a.lapNumber ≠ b.lapNumber))
    (who : String) (lap : Nat) :
    obsTime laps who lap = .ok (obsTimeVal laps who lap) := by
  rcases filter_pair_small laps hnd who lap with hfil | ⟨r, hfil⟩
  · have hnone : laps.find? (fun r => r.driver == who && r.lapNumber == lap) = none := by
      rw [List.find?_eq_none]
      intro x hx
      have := List.filter_eq_nil_iff.mp hfil x hx
      simpa using this
    unfold obsTime obsTimeVal
    rw [hfil, hnone]
    rfl
  · unfold obsTime obsTimeVal
    rw [hfil, find?_of_filter_singleton _ laps r hfil]
    rfl

lemma simLapTime_ok (laps : List ULap)
    (hnd : laps.Pairwise
      (fun a b => a.driver = b.driver → a.lapNumber ≠ b.lapNumber))
    (who : String) (pits : List Nat) (delta : ℚ) (lap : Nat) :
    simLapTime laps who pits delta lap =
      .ok (simLapTimeVal laps who pits delta lap) := by
  rw [simLapTime, obsTime_ok laps hnd who lap, except_bind_ok]
  rfl

lemma obsTime_error_msg (laps : List ULap) (who : String) (lap : Nat)
    (e : String) (h : obsTime laps who lap = .error e) : e = floatSeriesError := by
  unfold obsTime at h
  rcases hfil : laps.filter (fun r => r.driver == who && r.lapNumber == lap)
    with _ | ⟨a, _ | ⟨b, t⟩⟩ <;> rw [hfil] at h
  · exact Except.noConfusion h
  · exact Except.noConfusion h
  · exact ((Except.error.injEq _ _).mp h).symm

lemma obsTime_error_of_dup (laps : List ULap) (who : String) (lap : Nat)
    (h : 2 ≤ (laps.filter (fun r => r.driver == who && r.lapNumber == lap)).length) :
    obsTime laps who lap = .error floatSeriesError := by
  unfold obsTime
  rcases hfil : laps.filter (fun r => r.driver == who && r.lapNumber == lap)
    with _ | ⟨a, _ | ⟨b, t⟩⟩
  · rw [hfil] at h
    simp at h
  · rw [hfil] at h
    simp at h
  · rw [hfil]

lemma simLapTime_error_msg (laps : List ULap) (who : String) (pits : List Nat)
    (delta : ℚ) (lap : Nat) (e : String)
    (h : simLapTime laps who pits delta lap = .error e) : e = floatSeriesError := by
  rw [simLapTime] at h
  rcases hobs : obsTime laps who lap with e0 | v <;> rw [hobs] at h
  · rw [except_bind_error] at h
    have he : e0 = e := (Except.error.injEq _ _).mp h
    exact he ▸ obsTime_error_msg laps who lap e0 hobs
  · rw [except_bind_ok] at h
    exact Except.noConfusion h

lemma simLapTime_error_of_dup (laps : List ULap) (who : String)
    (pits : List Nat) (delta : ℚ) (lap : Nat)
    (h : 2 ≤ (laps.filter (fun r => r.driver == who && r.lapNumber == lap)).length) :
    simLapTime laps who pits delta lap = .error floatSeriesError := by
  rw [simLapTime, obsTime_error_of_dup laps who lap h, except_bind_error]

/-- When every visited lap evaluates without error, the loop returns the
pointwise `simLapTimeVal` values. -/
lemma simLapTimesOver_ok (laps : List ULap) (who : String) (pits : List Nat)
    (delta : ℚ)
    (hnd : laps.Pairwise
      (fun a b => a.driver = b.driver → a.lapNumber ≠ b.lapNumber)) :
    ∀ (idxs : List Nat),
      simLapTimesOver laps who pits delta idxs =
        .ok (idxs.map (simLapTimeVal laps who pits delta))
  | [] => rfl
  | i :: is => by
    rw [simLapTimesOver, simLapTime_ok laps hnd who pits delta i, except_bind_ok,
      simLapTimesOver_ok laps who pits delta hnd is, except_bind_ok]
    rfl

/-- A visited lap that evaluates to an error makes the whole loop raise the
`TypeError`. -/
lemma simLapTimesOver_error (laps : List ULap) (who : String) (pits : List Nat)
    (delta : ℚ) :
    ∀ (idxs : List Nat), (∃ i ∈ idxs, ∃ e, simLapTime laps who pits delta i = .error e) →
      simLapTimesOver laps who pits delta idxs = .error floatSeriesError
  | [], h => by
    obtain ⟨i, hi, _⟩ := h
    exact absurd hi (List.not_mem_nil i)
  | i :: is, h => by
    rw [simLapTimesOver]
    rcases hsi : simLapTime laps who pits delta i with e | v
    · rw [except_bind_error, simLapTime_error_msg laps who pits delta i e hsi]
    · rw [except_bind_ok]
      obtain ⟨j, hj, ej, hje⟩ := h
      rcases List.mem_cons.mp hj with rfl | hj2
      · rw [hsi] at hje
        exact absurd hje (by simp)
      · rw [simLapTimesOver_error laps who pits delta is ⟨j, hj2, ej, hje⟩,
          except_bind_error]

lemma simLapTimesOver_error_msg (laps : List ULap) (who : String)
    (pits : List Nat) (delta : ℚ) :
    ∀ (idxs : List Nat) (e : String),
      simLapTimesOver laps who pits delta idxs = .error e → e = floatSeriesError
  | [], e, h => by simp [simLapTimesOver] at h
  | i :: is, e, h => by
    rw [simLapTimesOver] at h
    rcases hsi : simLapTime laps who pits delta i with e0 | v <;> rw [hsi] at h
    · rw [except_bind_error] at h
      have : e0 = e := ((Except.error.injEq _ _).mp h)
      exact this ▸ simLapTime_error_msg laps who pits delta i e0 hsi
    · rw [except_bind_ok] at h
      rcases hrest : simLapTimesOver laps who pits delta is with e1 | l <;>
        rw [hrest] at h
      · rw [except_bind_error] at h
        have : e1 = e := ((Except.error.injEq _ _).mp h)
        exact this ▸ simLapTimesOver_error_msg laps who pits delta is e1 hrest
      · rw [except_bind_ok] at h
        exact Except.noConfusion h

/-- On a well-formed table, `perLapTimes` yields the per-lap values of laps
`1 .. max_lap`. -/
lemma perLapTimes_ok (laps : List ULap) (who : String) (pits : List Nat)
    (delta : ℚ)
    (hnd : laps.Pairwise
      (fun a b => a.driver = b.driver → a.lapNumber ≠ b.lapNumber)) :
    perLapTimes laps who pits delta = .ok (perLapVals laps who pits delta) := by
  rw [perLapTimes, simLapTimesOver_ok laps who pits delta hnd, List.map_map,
    perLapVals]
  rfl

lemma perLapTimes_error_msg (laps : List ULap) (who : String) (pits : List Nat)
    (delta : ℚ) (e : String) (h : perLapTimes laps who pits delta = .error e) :
    e = floatSeriesError := by
  rw [perLapTimes] at h
  exact simLapTimesOver_error_msg laps who pits delta _ e h

lemma perLapTimes_error_of_dup (laps : List ULap) (who : String)
    (pits : List Nat) (delta : ℚ) (lap : Nat) (h1 : 1 ≤ lap)
    (h2 : lap ≤ maxLapOf laps)
    (hdup : 2 ≤ (laps.filter
      (fun r => r.driver == who && r.lapNumber == lap)).length) :
    perLapTimes laps who pits delta = .error floatSeriesError := by
  rw [perLapTimes]
  refine simLapTimesOver_error laps who pits delta _ ⟨lap, ?_, floatSeriesError,
    simLapTime_error_of_dup laps who pits delta lap hdup⟩
  rw [List.mem_map]
  exact ⟨lap - 1, List.mem_range.mpr (by omega), by omega⟩

lemma perLapTimes_nil_of_maxLap_zero (laps : List ULap) (who : String)
    (pits : List Nat) (delta : ℚ) (hmax : maxLapOf laps = 0) :
    perLapTimes laps who pits delta = .ok [] := by
  rw [perLapTimes, hmax]
  rfl

lemma undercutFinalize_nil (driver rival : String) (cand : Nat)
    (rp : List Nat) :
    undercutFinalize driver rival cand rp [] [] = .raised listIndexError :=
  rfl

/-- On non-empty per-lap series the finalization step succeeds, with the
final gap equal to the difference of the participants' total times. -/
lemma undercutFinalize_ne (driver rival : String) (cand : Nat) (rp : List Nat)
    (dT rT : List (Option ℚ)) (h1 : dT ≠ []) (h2 : rT ≠ []) :
    undercutFinalize driver rival cand rp dT rT =
      .ok { driver := driver, rival := rival, candidate_pit_lap := cand,
            rival_pit_laps := rp,
            final_gap_s := optSub (optSum dT) (optSum rT),
            sim_driver_cum := optPrefixSums (some 0) dT,
            sim_rival_cum := optPrefixSums (some 0) rT } := by
  rw [undercutFinalize, optPrefixSums_getLast? dT (some 0) h1,
    optPrefixSums_getLast? rT (some 0) h2]
  rfl

lemma undercutFinalize_ne_errorDict (driver rival : String) (cand : Nat)
    (rp : List Nat) (dT rT : List (Option ℚ)) (msg : String) :
    undercutFinalize driver rival cand rp dT rT ≠ .errorDict msg := by
  rw [undercutFinalize]
  rcases (optPrefixSums (some 0) dT).getLast? with _ | dl <;>
    rcases (optPrefixSums (some 0) rT).getLast? with _ | rl <;> simp

/-- C7, counterexample: driver `D` has no observed lap 3 and a mean lap
time of 100 s over the race, yet with `candidate_pit_lap = 3` the
simulated lap-3 value is the pit delta alone (20 s), not the driver's
mean: the claim that EVERY missing lap is backfilled with the driver's
mean fails on the candidate pit lap. -/
theorem claim7_counterexample :
    simulate_undercut_overtake
        [ULap.mk "D" 1 "S" (some 100), ULap.mk "D" 2 "S" (some 100),
         ULap.mk "R" 1 "S" (some 90), ULap.mk "R" 2 "S" (some 90),
         ULap.mk "R" 3 "S" (some 90)] "D" "R" 3 20 =
      .ok (UndercutResult.mk "D" "R" 3 [1] (some (-70))
        [some 100, some 200, some 220] [some 110, some 200, some 290]) ∧
    obsTimeVal
        [ULap.mk "D" 1 "S" (some 100), ULap.mk "D" 2 "S" (some 100),
         ULap.mk "R" 1 "S" (some 90), ULap.mk "R" 2 "S" (some 90),
         ULap.mk "R" 3 "S" (some 90)] "D" 3 = none ∧
    obsTime
        [ULap.mk "D" 1 "S" (some 100), ULap.mk "D" 2 "S" (some 100),
         ULap.mk "R" 1 "S" (some 90), ULap.mk "R" 2 "S" (some 90),
         ULap.mk "R" 3 "S" (some 90)] "D" 3 = .ok none ∧
    nanmeanOf
        [ULap.mk "D" 1 "S" (some 100), ULap.mk "D" 2 "S" (some 100),
         ULap.mk "R" 1 "S" (some 90), ULap.mk "R" 2 "S" (some 90),
         ULap.mk "R" 3 "S" (some 90)] "D" = some 100 ∧
    simLapTimeVal
        [ULap.mk "D" 1 "S" (some 100), ULap.mk "D" 2 "S" (some 100),
         ULap.mk "R" 1 "S" (some 90), ULap.mk "R" 2 "S" (some 90),
         ULap.mk "R" 3 "S" (some 90)] "D" [3] 20 3 = some 20 ∧
    some (20 : ℚ) ≠ some (100 : ℚ) := by
  refine ⟨?_, ?_, ?_, ?_, ?_, ?_⟩ <;> with_unfolding_all decide

/-- C7, amended: the simulator returns the soft error dict exactly on an
empty lap table; on a non-empty table it can still raise — `IndexError`
when the maximum lap number is 0 (the loop never runs and `sim_d[-1]` is
out of range), and the `TypeError` of `float(...)` on a Series when a
visited lap has a duplicated `(Driver, LapNumber)` row for a simulated
participant; on a table with per-driver-unique lap numbers and at least
one lap it returns the result whose cumulative series are the running
(NaN-propagating) sums of the per-lap values and whose `final_gap_s` is
the driver's total simulated time minus the rival's; a lap with no
observed time for the driver is backfilled with the driver's own
race-wide mean lap time, EXCEPT the candidate pit lap, where the pit
delta alone is used. -/
theorem claim7_undercut_simulation (laps : List ULap) (driver rival : String)
    (cand : Nat) (delta : ℚ) :
    (simulate_undercut_overtake laps driver rival cand delta =
        .errorDict "lap data empty" ↔ laps = []) ∧
    (laps ≠ [] → maxLapOf laps = 0 →
      simulate_undercut_overtake laps driver rival cand delta =
        .raised listIndexError) ∧
    (∀ lap, 1 ≤ lap → lap ≤ maxLapOf laps →
      (2 ≤ (laps.filter
          (fun r => r.driver == driver && r.lapNumber == lap)).length ∨
       2 ≤ (laps.filter
          (fun r => r.driver == rival && r.lapNumber == lap)).length) →
      simulate_undercut_overtake laps driver rival cand delta =
        .raised floatSeriesError) ∧
    (laps.Pairwise
        (fun a b => a.driver = b.driver → a.lapNumber ≠ b.lapNumber) →
      1 ≤ maxLapOf laps →
      simulate_undercut_overtake laps driver rival cand delta =
        .ok (UndercutResult.mk driver rival cand (rivalPitsOf laps rival)
          (optSub (optSum (perLapVals laps driver [cand] delta))
            (optSum (perLapVals laps rival (rivalPitsOf laps rival) delta)))
          (optPrefixSums (some 0) (perLapVals laps driver [cand] delta))
          (optPrefixSums (some 0)
            (perLapVals laps rival (rivalPitsOf laps rival) delta)))) ∧
    (∀ lap, obsTimeVal laps driver lap = none →
      (lap ≠ cand →
        simLapTimeVal laps driver [cand] delta lap = nanmeanOf laps driver) ∧
      (lap = cand →
        simLapTimeVal laps driver [cand] delta lap = some delta)) := by
  refine ⟨?_, ?_, ?_, ?_, ?_⟩
  · constructor
    · intro h
      by_contra hne
      rw [simulate_undercut_overtake, if_neg (by simpa using hne)] at h
      rcases hD : perLapTimes laps driver [cand] delta with e | dT <;>
        rw [hD] at h
      · exact UndercutOutcome.noConfusion h
      · rcases hR : perLapTimes laps rival (rivalPitsOf laps rival) delta
          with e | rT <;> rw [hR] at h
        · exact UndercutOutcome.noConfusion h
        · exact absurd h (undercutFinalize_ne_errorDict driver rival cand
            (rivalPitsOf laps rival) dT rT _)
    · rintro rfl
      rfl
  · intro hne hmax
    rw [simulate_undercut_overtake, if_neg (by simpa using hne),
      perLapTimes_nil_of_maxLap_zero laps driver _ delta hmax,
      perLapTimes_nil_of_maxLap_zero laps rival _ delta hmax]
    exact undercutFinalize_nil driver rival cand (rivalPitsOf laps rival)
  · intro lap h1 h2 hdup
    have hne : laps ≠ [] := by
      intro hcon
      subst hcon
      rcases hdup with h | h <;> simp at h
    rw [simulate_undercut_overtake, if_neg (by simpa using hne)]
    rcases hdup with hd | hr
    · rw [perLapTimes_error_of_dup laps driver [cand] delta lap h1 h2 hd]
    · rcases hD : perLapTimes laps driver [cand] delta with e | dT
      · rw [perLapTimes_error_msg laps driver [cand] delta e hD]
      · rw [perLapTimes_error_of_dup laps rival (rivalPitsOf laps rival)
          delta lap h1 h2 hr]
  · intro hnd hmax
    have hne : laps ≠ [] := by
      intro hcon
      rw [hcon] at hmax
      simp [maxLapOf, natMax] at hmax
    have hdne : perLapVals laps driver [cand] delta ≠ [] := by
      rw [perLapVals]
      intro hcon
      have := congrArg List.length hcon
      simp only [List.length_map, List.length_range, List.length_nil] at this
      omega
    have hrne : perLapVals laps rival (rivalPitsOf laps rival) delta ≠ [] := by
      rw [perLapVals]
      intro hcon
      have := congrArg List.length hcon
      simp only [List.length_map, List.length_range, List.length_nil] at this
      omega
    rw [simulate_undercut_overtake, if_neg (by simpa using hne),
      perLapTimes_ok laps driver [cand] delta hnd,
      perLapTimes_ok laps rival (rivalPitsOf laps rival) delta hnd]
    exact undercutFinalize_ne driver rival cand (rivalPitsOf laps rival)
      (perLapVals laps driver [cand] delta)
      (perLapVals laps rival (rivalPitsOf laps rival) delta) hdne hrne
  · intro lap hobs
    constructor
    · intro hnc
      exact simLapTimeVal_backfill laps driver [cand] delta lap hobs
        (by simpa using hnc)
    · intro heq
      exact simLapTimeVal_pit_missing laps driver [cand] delta lap hobs
        (by simp [heq])

/-- C7, witness: driver `D` is missing lap 2 (not the pit lap), whose
simulated value is exactly `D`'s own mean lap time, and the well-formed
five-row table yields a full result, not an error or an exception. -/
theorem claim7_witness :
    simLapTimeVal
        [ULap.mk "D" 1 "S" (some 100), ULap.mk "D" 3 "S" (some 104),
         ULap.mk "R" 1 "S" (some 90), ULap.mk "R" 2 "S" (some 90),
         ULap.mk "R" 3 "S" (some 90)] "D" [1] 20 2 =
      nanmeanOf
        [ULap.mk "D" 1 "S" (some 100), ULap.mk "D" 3 "S" (some 104),
         ULap.mk "R" 1 "S" (some 90), ULap.mk "R" 2 "S" (some 90),
         ULap.mk "R" 3 "S" (some 90)] "D" ∧
    simulate_undercut_overtake
        [ULap.mk "D" 1 "S" (some 100), ULap.mk "D" 3 "S" (some 104),
         ULap.mk "R" 1 "S" (some 90), ULap.mk "R" 2 "S" (some 90),
         ULap.mk "R" 3 "S" (some 90)] "D" "R" 1 20 =
      .ok (UndercutResult.mk "D" "R" 1
        (rivalPitsOf
          [ULap.mk "D" 1 "S" (some 100), ULap.mk "D" 3 "S" (some 104),
           ULap.mk "R" 1 "S" (some 90), ULap.mk "R" 2 "S" (some 90),
           ULap.mk "R" 3 "S" (some 90)] "R")
        (optSub
          (optSum (perLapVals
            [ULap.mk "D" 1 "S" (some 100), ULap.mk "D" 3 "S" (some 104),
             ULap.mk "R" 1 "S" (some 90), ULap.mk "R" 2 "S" (some 90),
             ULap.mk "R" 3 "S" (some 90)] "D" [1] 20))
          (optSum (perLapVals
            [ULap.mk "D" 1 "S" (some 100), ULap.mk "D" 3 "S" (some 104),
             ULap.mk "R" 1 "S" (some 90), ULap.mk "R" 2 "S" (some 90),
             ULap.mk "R" 3 "S" (some 90)] "R"
            (rivalPitsOf
              [ULap.mk "D" 1 "S" (some 100), ULap.mk "D" 3 "S" (some 104),
               ULap.mk "R" 1 "S" (some 90), ULap.mk "R" 2 "S" (some 90),
               ULap.mk "R" 3 "S" (some 90)] "R") 20)))
        (optPrefixSums (some 0) (perLapVals
          [ULap.mk "D" 1 "S" (some 100), ULap.mk "D" 3 "S" (some 104),
           ULap.mk "R" 1 "S" (some 90), ULap.mk "R" 2 "S" (some 90),
           ULap.mk "R" 3 "S" (some 90)] "D" [1] 20))
        (optPrefixSums (some 0) (perLapVals
          [ULap.mk "D" 1 "S" (some 100), ULap.mk "D" 3 "S" (some 104),
           ULap.mk "R" 1 "S" (some 90), ULap.mk "R" 2 "S" (some 90),
           ULap.mk "R" 3 "S" (some 90)] "R"
          (rivalPitsOf
            [ULap.mk "D" 1 "S" (some 100), ULap.mk "D" 3 "S" (some 104),
             ULap.mk "R" 1 "S" (some 90), ULap.mk "R" 2 "S" (some 90),
             ULap.mk "R" 3 "S" (some 90)] "R") 20))) := by
  have h := claim7_undercut_simulation
    [ULap.mk "D" 1 "S" (some 100), ULap.mk "D" 3 "S" (some 104),
     ULap.mk "R" 1 "S" (some 90), ULap.mk "R" 2 "S" (some 90),
     ULap.mk "R" 3 "S" (some 90)] "D" "R" 1 20
  refine ⟨(h.2.2.2.2 2 (by with_unfolding_all decide)).1 (by decide),
    h.2.2.2.1 (by decide) (by with_unfolding_all decide)⟩

/-! ## Claim C3 -/

/-- One driver's `RaceTime_s` column of the per-driver cumulative sum is
the running sum of that driver's lap times in frame order, offset by the
driver's running total carried in the accumulator. -/
lemma cumByDriver_race (d : String) :
    ∀ (rows : List (SLap × ℚ)) (acc : List (String × ℚ)),
      ((cumByDriver acc rows).filter (fun o => o.driver == d)).map SOut.raceTime_s =
        prefixSumsFrom ((acc.lookup d).getD 0)
          ((rows.filter (fun p => p.1.driver == d)).map (fun p => p.2))
  | [], acc => by simp [cumByDriver, prefixSumsFrom]
  | (r, t) :: rest, acc => by
    rw [cumByDriver]
    by_cases hd : r.driver = d
    · subst hd
      rw [List.filter_cons_of_pos (by simp), List.filter_cons_of_pos (by simp),
        List.map_cons, List.map_cons, prefixSumsFrom]
      refine congrArg₂ List.cons rfl ?_
      have hlook : ((((r.driver,
          (acc.lookup r.driver).getD 0 + t)) :: acc).lookup r.driver).getD 0 =
          (acc.lookup r.driver).getD 0 + t := by
        simp [List.lookup]
      rw [cumByDriver_race r.driver rest
        (((r.driver, (acc.lookup r.driver).getD 0 + t)) :: acc), hlook]
    · rw [List.filter_cons_of_neg (by simpa using hd),
        List.filter_cons_of_neg (by simpa using hd)]
      have hlook : ((((r.driver,
          (acc.lookup r.driver).getD 0 + t)) :: acc).lookup d).getD 0 =
          ((acc.lookup d).getD 0) := by
        have hbeq : (d == r.driver) = false := by
          simpa using fun h => hd h.symm
        simp [List.lookup, hbeq]
      rw [cumByDriver_race d rest (((r.driver, (acc.lookup r.driver).getD 0 + t)) :: acc),
        hlook]

/-- One driver's `LapTime_s` column of the cumulative-sum output is that
driver's lap-time values in frame order. -/
lemma cumByDriver_lapTime (d : String) :
    ∀ (rows : List (SLap × ℚ)) (acc : List (String × ℚ)),
      ((cumByDriver acc rows).filter (fun o => o.driver == d)).map SOut.lapTime_s =
        (rows.filter (fun p => p.1.driver == d)).map (fun p => p.2)
  | [], _ => by simp [cumByDriver]
  | (r, t) :: rest, acc => by
    rw [cumByDriver]
    by_cases hd : r.driver = d
    · subst hd
      rw [List.filter_cons_of_pos (by simp), List.filter_cons_of_pos (by simp),
        List.map_cons, List.map_cons]
      exact congrArg₂ List.cons rfl (cumByDriver_lapTime r.driver rest _)
    · rw [List.filter_cons_of_neg (by simpa using hd),
        List.filter_cons_of_neg (by simpa using hd)]
      exact cumByDriver_lapTime d rest _

/-- One driver's `LapNumber` column of the cumulative-sum output is that
driver's lap numbers in frame order. -/
lemma cumByDriver_lapNumber (d : String) :
    ∀ (rows : List (SLap × ℚ)) (acc : List (String × ℚ)),
      ((cumByDriver acc rows).filter (fun o => o.driver == d)).map SOut.lapNumber =
        (rows.filter (fun p => p.1.driver == d)).map (fun p => p.1.lapNumber)
  | [], _ => by simp [cumByDriver]
  | (r, t) :: rest, acc => by
    rw [cumByDriver]
    by_cases hd : r.driver = d
    · subst hd
      rw [List.filter_cons_of_pos (by simp), List.filter_cons_of_pos (by simp),
        List.map_cons, List.map_cons]
      exact congrArg₂ List.cons rfl (cumByDriver_lapNumber r.driver rest _)
    · rw [List.filter_cons_of_neg (by simpa using hd),
        List.filter_cons_of_neg (by simpa using hd)]
      exact cumByDriver_lapNumber d rest _

/-- The non-cumulative columns of the output reproduce the input rows in
order. -/
lemma cumByDriver_proj :
    ∀ (rows : List (SLap × ℚ)) (acc : List (String × ℚ)),
      (cumByDriver acc rows).map
          (fun o => (o.driver, o.lapNumber, o.stint, o.lapTime_s)) =
        rows.map (fun p => (p.1.driver, p.1.lapNumber, p.1.stint, p.2))
  | [], _ => rfl
  | (r, t) :: rest, acc => by
    rw [cumByDriver, List.map_cons, List.map_cons]
    exact congrArg₂ List.cons rfl (cumByDriver_proj rest _)

/-- Running sums of non-negative values never decrease. -/
lemma prefixSumsFrom_chain :
    ∀ (xs : List ℚ) (s : ℚ), (∀ x ∈ xs, 0 ≤ x) →
      List.Chain' (· ≤ ·) (prefixSumsFrom s xs)
  | [], _, _ => List.chain'_nil
  | x :: xs, s, h => by
    rw [prefixSumsFrom, List.chain'_cons']
    refine ⟨?_, prefixSumsFrom_chain xs (s + x)
      (fun y hy => h y (List.mem_cons_of_mem x hy))⟩
    intro y hy
    rcases xs with _ | ⟨z, zs⟩
    · simp [prefixSumsFrom] at hy
    · rw [prefixSumsFrom, List.head?_cons, Option.mem_some_iff] at hy
      have hz : 0 ≤ z := h z (List.mem_cons_of_mem x (List.mem_cons_self _ _))
      rw [← hy]
      linarith

/-- After sorting by `(LapNumber, Stint)`, any single driver's rows appear
in strictly increasing `LapNumber` order, provided no driver has two rows
with the same lap number. -/
lemma sorted_filter_strict (laps : List SLap) (d : String)
    (hnd : laps.Pairwise
      (fun a b => a.driver = b.driver → a.lapNumber ≠ b.lapNumber)) :
    (((List.insertionSort lapKeyLE
          (laps.filterMap (fun r => r.lapTime.map (fun t => (r, t))))).filter
        (fun p => p.1.driver == d)).map
      (fun p => p.1.lapNumber)).Pairwise (· < ·) := by
  have hQ : (laps.filterMap (fun r => r.lapTime.map (fun t => (r, t)))).Pairwise
      (fun p q : SLap × ℚ =>
        p.1.driver = q.1.driver → p.1.lapNumber ≠ q.1.lapNumber) := by
    rw [List.pairwise_filterMap]
    refine hnd.imp ?_
    intro a b hab x hx y hy
    obtain ⟨ta, _, hxa⟩ := Option.map_eq_some'.mp hx
    obtain ⟨tb, _, hyb⟩ := Option.map_eq_some'.mp hy
    rw [← hxa, ← hyb]
    exact hab
  have hsymm : ∀ {x y : SLap × ℚ},
      (x.1.driver = y.1.driver → x.1.lapNumber ≠ y.1.lapNumber) →
      (y.1.driver = x.1.driver → y.1.lapNumber ≠ x.1.lapNumber) :=
    fun hq hdr => (hq hdr.symm).symm
  have hQs := ((List.perm_insertionSort lapKeyLE
      (laps.filterMap (fun r => r.lapTime.map (fun t => (r, t))))).pairwise_iff
      hsymm).mpr hQ
  have hLEs : (List.insertionSort lapKeyLE
      (laps.filterMap (fun r => r.lapTime.map (fun t => (r, t))))).Pairwise
      lapKeyLE :=
    List.sorted_insertionSort lapKeyLE _
  rw [List.pairwise_map]
  refine List.Pairwise.imp_of_mem ?_
    (List.Pairwise.sublist (List.filter_sublist _) (hLEs.and hQs))
  intro a b ha hb hab
  have had : a.1.driver = d := by simpa using (List.of_mem_filter ha)
  have hbd : b.1.driver = d := by simpa using (List.of_mem_filter hb)
  have hne : a.1.lapNumber ≠ b.1.lapNumber := hab.2 (had.trans hbd.symm)
  rcases hab.1 with h | ⟨h, _⟩

  · exact h
  · exact absurd h hne

/-- C3, counterexample: without a `Time` column the source does NOT sort,
so with driver A's rows given as lap 2 (100 s) before lap 1 (90 s) the
cumulative sum runs in input order: the lap-1 row receives
`RaceTime_s = 190` instead of the running sum 90 that increasing-LapNumber
order requires, and per-lap race times decrease from lap 1 (190) to lap 2
(100). -/
theorem claim3_counterexample :
    compute_stint_data false
        [SLap.mk "A" 2 1 (some 100), SLap.mk "A" 1 1 (some 90)] =
      [SOut.mk "A" 2 1 100 100, SOut.mk "A" 1 1 90 190] ∧
    ((compute_stint_data false
        [SLap.mk "A" 2 1 (some 100), SLap.mk "A" 1 1 (some 90)]).find?
      (fun o => o.lapNumber == 1)).map SOut.raceTime_s = some 190 ∧
    (190 : ℚ) ≠ 90 := by
  refine ⟨?_, ?_, ?_⟩ <;> with_unfolding_all decide

/-- C3, amended: rows with a missing lap time are always dropped before the
cumulative sum, and per driver `RaceTime_s` is the running sum of
`LapTime_s` in the OUTPUT row order for either flag; when a `Time` column
is present the frame is sorted first, so (with per-driver-unique lap
numbers) each driver's rows run in strictly increasing `LapNumber` order
and the output is a permutation of the kept input rows; when `Time` is
absent the cumulative sum runs in the INPUT row order instead (the claim's
"regardless of input row order / Time column" fails there); non-negative
lap times make each driver's `RaceTime_s` non-decreasing. -/
theorem claim3_cumulative_race_time (laps : List SLap) (d : String) :
    (∀ b : Bool,
      ((compute_stint_data b laps).filter (fun o => o.driver == d)).map
          SOut.raceTime_s =
        prefixSumsFrom 0
          (((compute_stint_data b laps).filter (fun o => o.driver == d)).map
            SOut.lapTime_s)) ∧
    ((compute_stint_data false laps).map
        (fun o => (o.driver, o.lapNumber, o.stint, o.lapTime_s)) =
      laps.filterMap
        (fun r => r.lapTime.map (fun t => (r.driver, r.lapNumber, r.stint, t)))) ∧
    ((compute_stint_data true laps).map
        (fun o => (o.driver, o.lapNumber, o.stint, o.lapTime_s))).Perm
      (laps.filterMap
        (fun r => r.lapTime.map (fun t => (r.driver, r.lapNumber, r.stint, t)))) ∧
    (laps.Pairwise
        (fun a b => a.driver = b.driver → a.lapNumber ≠ b.lapNumber) →
      (((compute_stint_data true laps).filter (fun o => o.driver == d)).map
        SOut.lapNumber).Pairwise (· < ·)) ∧
    ((∀ r ∈ laps, ∀ t, r.lapTime = some t → 0 ≤ t) →
      ∀ b : Bool,
        (((compute_stint_data b laps).filter (fun o => o.driver == d)).map
          SOut.raceTime_s).Chain' (· ≤ ·)) := by
  have hproj : ∀ (rows : List (SLap × ℚ)),
      (cumByDriver [] rows).map
          (fun o => (o.driver, o.lapNumber, o.stint, o.lapTime_s)) =
        rows.map (fun p => (p.1.driver, p.1.lapNumber, p.1.stint, p.2)) :=
    fun rows => cumByDriver_proj rows []
  have hkept : ∀ (rows : List (SLap × ℚ)),
      rows.map (fun p => (p.1.driver, p.1.lapNumber, p.1.stint, p.2)) =
        rows.map (fun p => (p.1.driver, p.1.lapNumber, p.1.stint, p.2)) := fun _ => rfl
  refine ⟨?_, ?_, ?_, ?_, ?_⟩
  · intro b
    show ((cumByDriver [] _).filter _).map _ =
      prefixSumsFrom 0 (((cumByDriver [] _).filter _).map _)
    rw [cumByDriver_race d _ [], cumByDriver_lapTime d _ []]
    rfl
  · show (cumByDriver []
        (laps.filterMap (fun r => r.lapTime.map (fun t => (r, t))))).map _ = _
    rw [hproj, List.map_filterMap]
    refine congrArg₂ List.filterMap (funext fun r => ?_) rfl
    rcases r.lapTime with _ | t <;> rfl
  · show ((cumByDriver [] (List.insertionSort lapKeyLE
        (laps.filterMap (fun r => r.lapTime.map (fun t => (r, t)))))).map _).Perm _
    rw [hproj]
    have hperm := (List.perm_insertionSort lapKeyLE
      (laps.filterMap (fun r => r.lapTime.map (fun t => (r, t))))).map
      (fun p : SLap × ℚ => (p.1.driver, p.1.lapNumber, p.1.stint, p.2))
    refine hperm.trans ?_
    rw [List.map_filterMap]
    refine List.Perm.of_eq (congrArg₂ List.filterMap (funext fun r => ?_) rfl)
    rcases r.lapTime with _ | t <;> rfl
  · intro hnd
    show (((cumByDriver [] (List.insertionSort lapKeyLE
        (laps.filterMap (fun r => r.lapTime.map (fun t => (r, t)))))).filter
        (fun o => o.driver == d)).map SOut.lapNumber).Pairwise (· < ·)
    rw [cumByDriver_lapNumber d _ []]
    exact sorted_filter_strict laps d hnd
  · intro hpos b
    show (((cumByDriver [] _).filter _).map SOut.raceTime_s).Chain' (· ≤ ·)
    rw [cumByDriver_race d _ []]
    refine prefixSumsFrom_chain _ _ ?_
    intro x hx
    rw [List.mem_map] at hx
    obtain ⟨p, hpf, rfl⟩ := hx
    have hpmem : p ∈ (if b then List.insertionSort lapKeyLE
        (laps.filterMap (fun r => r.lapTime.map (fun t => (r, t))))
      else laps.filterMap (fun r => r.lapTime.map (fun t => (r, t)))) := by
      have := List.mem_of_mem_filter hpf
      rcases b <;> simpa using this
    have hpkept : p ∈ laps.filterMap (fun r => r.lapTime.map (fun t => (r, t))) := by
      rcases b with _ | _
      · simpa using hpmem
      · exact (List.perm_insertionSort lapKeyLE _).mem_iff.mp (by simpa using hpmem)
    rw [List.mem_filterMap] at hpkept
    obtain ⟨r, hr, hfr⟩ := hpkept
    obtain ⟨t, hrt, hppair⟩ := Option.map_eq_some'.mp hfr
    have : p.2 = t := by rw [← hppair]
    rw [this]
    exact hpos r hr t hrt

/-- C3, witness: with a `Time` column and driver A's rows supplied out of
order (lap 2 before lap 1), the output runs strictly in increasing lap
order with the non-decreasing running sums `[90, 190]`. -/
theorem claim3_witness :
    (((compute_stint_data true
          [SLap.mk "A" 2 1 (some 100), SLap.mk "A" 1 1 (some 90)]).filter
        (fun o => o.driver == "A")).map SOut.lapNumber).Pairwise (· < ·) ∧
    (((compute_stint_data true
          [SLap.mk "A" 2 1 (some 100), SLap.mk "A" 1 1 (some 90)]).filter
        (fun o => o.driver == "A")).map SOut.raceTime_s).Chain' (· ≤ ·) := by
  have h := claim3_cumulative_race_time
    [SLap.mk "A" 2 1 (some 100), SLap.mk "A" 1 1 (some 90)] "A"
  refine ⟨h.2.2.2.1 ?_, h.2.2.2.2 ?_ true⟩
  · decide
  · intro r hr t ht
    simp only [List.mem_cons, List.not_mem_nil, or_false] at hr
    rcases hr with rfl | rfl <;> simp_all <;> linarith

end F1
